import Mathlib

/-!
# Employer orchestration core, shallowly embedded

A shallow embedding of the Employer repository's orchestration core:
the shared schema (`shared/schema.ts`), the in-memory entity store
(`server/storage.ts`, class `MemStorage`), the judge-result shaping of
`server/services/claude.ts` (`verifySubmission`), and the route handlers
of the server routing file (`registerRoutes`): submission creation,
verification (single and batch), payment settlement (single and batch),
and the budget mutations.

Modelling conventions, uniform throughout:

* decimal amount strings (`rewardSol`, `amountSol`, `totalEarnings`,
  `balanceSol`, `totalPaidOut`) are modelled as exact rationals `ℚ`;
  the `parseFloat`/`toString` round-trips of the source are treated as
  exact, and the `isNaN` guards of the source are subsumed by the type;
* entity identifiers (`randomUUID`) are modelled as naturals drawn from
  a freshness counter `nextId` held in the store;
* wall-clock stamps (`new Date()`) are modelled by a logical clock `now`
  in the store, bumped by every stamping operation;
* JavaScript truthiness tests on optional strings (`if (signature)`,
  `worker?.walletAddress`, `walletAddress || ""`) are modelled by
  `strTruthy`: present and non-empty;
* the external collaborators — the wallet-address validator, the judge
  transport (`anthropic.messages.create` plus JSON parsing), the funds
  executor `sendPayment`, the confirmation checker `verifyTransaction`,
  the password hasher, and the rewards source — are oracles gathered in
  `Ext`; each route is a pure function of the store and the oracles.
-/

namespace Employer

/-- Truthiness of a JavaScript optional-string value: present and
non-empty. -/
def strTruthy : Option String → Bool
  | some x => x ≠ ""
  | none => false

/-- JavaScript `String.prototype.startsWith(pre)`, modelled at the
character level: the pattern is an initial segment of the string. -/
def jsStartsWith (s pre : String) : Bool :=
  pre.data.isPrefixOf s.data

/-- Task status enumeration of `shared/schema.ts` (`TaskStatus`). -/
inductive TaskStatus where
  | open_
  | in_progress
  | pending_verification
  | completed
  | cancelled
deriving DecidableEq, Repr

/-- Submission status enumeration of `shared/schema.ts`
(`SubmissionStatus`). -/
inductive SubmissionStatus where
  | pending
  | approved
  | rejected
deriving DecidableEq, Repr

/-- Payment status enumeration of `shared/schema.ts` (`PaymentStatus`). -/
inductive PaymentStatus where
  | pending
  | processing
  | completed
  | failed
deriving DecidableEq, Repr

/-- A worker record (`users` table of `shared/schema.ts`). -/
structure User where
  id : ℕ
  username : String
  password : String
  walletAddress : Option String
  totalEarnings : ℚ
  tasksCompleted : ℕ
deriving DecidableEq, Repr

/-- A task record (`tasks` table of `shared/schema.ts`). -/
structure Task where
  id : ℕ
  title : String
  description : String
  taskType : String
  rewardSol : ℚ
  status : TaskStatus
  verificationCriteria : String
  maxSubmissions : ℕ
  currentSubmissions : ℕ
  deadline : Option ℕ
  createdAt : ℕ
  assignedTo : Option ℕ
deriving DecidableEq, Repr

/-- A submission record (`submissions` table of `shared/schema.ts`). -/
structure Submission where
  id : ℕ
  taskId : ℕ
  workerId : ℕ
  proofType : String
  proofData : String
  proofDescription : Option String
  status : SubmissionStatus
  aiVerificationResult : Option String
  aiVerificationScore : Option ℚ
  submittedAt : ℕ
  verifiedAt : Option ℕ
deriving DecidableEq, Repr

/-- A payment record (`payments` table of `shared/schema.ts`). -/
structure Payment where
  id : ℕ
  submissionId : ℕ
  taskId : ℕ
  workerId : ℕ
  walletAddress : String
  amountSol : ℚ
  status : PaymentStatus
  transactionSignature : Option String
  errorMessage : Option String
  createdAt : ℕ
  completedAt : Option ℕ
deriving DecidableEq, Repr

/-- The singleton budget record (`budget` table of `shared/schema.ts`). -/
structure Budget where
  id : ℕ
  walletAddress : String
  balanceSol : ℚ
  totalPaidOut : ℚ
  lastUpdated : ℕ
deriving DecidableEq, Repr

/-- Verification result shape returned by the judge service
(`VerificationResult` of `shared/schema.ts`). -/
structure VerificationResult where
  approved : Bool
  score : ℚ
  reasoning : String
  suggestions : Option (List String)
deriving DecidableEq, Repr

/-- Funds-executor result shape (`TransactionResult` of
`shared/schema.ts`). -/
structure TransactionResult where
  success : Bool
  signature : Option String
  error : Option String
deriving DecidableEq, Repr

/-- The in-memory entity store of `server/storage.ts` (`class
MemStorage`): one map per entity plus the optional budget record, with
the id-freshness counter and the logical clock of the modelling
conventions. -/
structure MemStorage where
  users : List User
  tasks : List Task
  submissions : List Submission
  payments : List Payment
  budgetData : Option Budget
  nextId : ℕ
  now : ℕ
deriving DecidableEq, Repr

/-- A fresh store, as built by the `MemStorage` constructor. -/
def MemStorage.init : MemStorage :=
  { users := [], tasks := [], submissions := [], payments := [],
    budgetData := none, nextId := 0, now := 0 }

/-- Update every element of an entity list that carries the given id
(`this.xs.get(id)` followed by mutation and `set`). -/
def setById {α : Type} (idOf : α → ℕ) (l : List α) (i : ℕ) (f : α → α) : List α :=
  l.map fun a => if idOf a = i then f a else a

/-- Source `MemStorage.getUser`. -/
def MemStorage.getUser (s : MemStorage) (id : ℕ) : Option User :=
  s.users.find? fun u => u.id = id

/-- Source `MemStorage.getUserByUsername`. -/
def MemStorage.getUserByUsername (s : MemStorage) (username : String) : Option User :=
  s.users.find? fun u => u.username = username

/-- Source `MemStorage.createUser`: fresh id, zero earnings and counter. -/
def MemStorage.createUser (s : MemStorage) (username password : String)
    (walletAddress : Option String) : User × MemStorage :=
  let u : User :=
    { id := s.nextId, username := username, password := password,
      walletAddress := walletAddress, totalEarnings := 0, tasksCompleted := 0 }
  (u, { s with users := s.users ++ [u], nextId := s.nextId + 1 })

/-- Source `MemStorage.updateUserEarnings`: add the amount to the
worker's earnings and bump the completed-task counter; silently a no-op
when the id is unknown. -/
def MemStorage.updateUserEarnings (s : MemStorage) (id : ℕ) (amount : ℚ) : MemStorage :=
  { s with users := setById User.id s.users id fun u =>
      { u with totalEarnings := u.totalEarnings + amount,
               tasksCompleted := u.tasksCompleted + 1 } }

/-- Source `MemStorage.getTask`. -/
def MemStorage.getTask (s : MemStorage) (id : ℕ) : Option Task :=
  s.tasks.find? fun t => t.id = id

/-- Source `MemStorage.createTask`: fresh id, status `open`, counter 0,
unassigned. -/
def MemStorage.createTask (s : MemStorage) (title description taskType : String)
    (rewardSol : ℚ) (verificationCriteria : String) (maxSubmissions : ℕ)
    (deadline : Option ℕ) : Task × MemStorage :=
  let t : Task :=
    { id := s.nextId, title := title, description := description,
      taskType := taskType, rewardSol := rewardSol, status := TaskStatus.open_,
      verificationCriteria := verificationCriteria,
      maxSubmissions := maxSubmissions, currentSubmissions := 0,
      deadline := deadline, createdAt := s.now, assignedTo := none }
  (t, { s with tasks := s.tasks ++ [t], nextId := s.nextId + 1, now := s.now + 1 })

/-- Source `MemStorage.updateTaskStatus`. -/
def MemStorage.updateTaskStatus (s : MemStorage) (id : ℕ) (status : TaskStatus) : MemStorage :=
  { s with tasks := setById Task.id s.tasks id fun t => { t with status := status } }

/-- Source `MemStorage.assignTask`: bind the worker and move the task to
`in_progress`. -/
def MemStorage.assignTask (s : MemStorage) (taskId workerId : ℕ) : MemStorage :=
  { s with tasks := setById Task.id s.tasks taskId fun t =>
      { t with assignedTo := some workerId, status := TaskStatus.in_progress } }

/-- Source `MemStorage.incrementTaskSubmissions`: bump the counter, and
when the (truthy) cap is reached move the task to
`pending_verification`. -/
def MemStorage.incrementTaskSubmissions (s : MemStorage) (id : ℕ) : MemStorage :=
  { s with tasks := setById Task.id s.tasks id fun t =>
      let c := t.currentSubmissions + 1
      { t with currentSubmissions := c
               status := if t.maxSubmissions ≠ 0 ∧ t.maxSubmissions ≤ c then
                   TaskStatus.pending_verification
                 else t.status } }

/-- Source `MemStorage.getSubmission`. -/
def MemStorage.getSubmission (s : MemStorage) (id : ℕ) : Option Submission :=
  s.submissions.find? fun x => x.id = id

/-- Source `MemStorage.getPendingSubmissions`. -/
def MemStorage.getPendingSubmissions (s : MemStorage) : List Submission :=
  s.submissions.filter fun x => x.status = SubmissionStatus.pending

/-- Source `MemStorage.createSubmission`: fresh id, status `pending`,
no verdict recorded yet. -/
def MemStorage.createSubmission (s : MemStorage) (taskId workerId : ℕ)
    (proofType proofData : String) (proofDescription : Option String) :
    Submission × MemStorage :=
  let x : Submission :=
    { id := s.nextId, taskId := taskId, workerId := workerId,
      proofType := proofType, proofData := proofData,
      proofDescription := proofDescription, status := SubmissionStatus.pending,
      aiVerificationResult := none, aiVerificationScore := none,
      submittedAt := s.now, verifiedAt := none }
  (x, { s with submissions := s.submissions ++ [x], nextId := s.nextId + 1,
               now := s.now + 1 })

/-- Source `MemStorage.updateSubmissionStatus`: set the status, record
the verdict text and score when truthy, and stamp `verifiedAt`. -/
def MemStorage.updateSubmissionStatus (s : MemStorage) (id : ℕ)
    (status : SubmissionStatus) (verificationResult : Option String)
    (verificationScore : Option ℚ) : MemStorage :=
  { s with
    submissions := setById Submission.id s.submissions id fun x =>
      { x with status := status,
               aiVerificationResult :=
                 if strTruthy verificationResult then verificationResult
                 else x.aiVerificationResult,
               aiVerificationScore :=
                 if verificationScore.isSome then verificationScore
                 else x.aiVerificationScore,
               verifiedAt := some s.now }
    now := s.now + 1 }

/-- Source `MemStorage.getPayment`. -/
def MemStorage.getPayment (s : MemStorage) (id : ℕ) : Option Payment :=
  s.payments.find? fun p => p.id = id

/-- Source `MemStorage.getPendingPayments`. -/
def MemStorage.getPendingPayments (s : MemStorage) : List Payment :=
  s.payments.filter fun p => p.status = PaymentStatus.pending

/-- Source `MemStorage.createPayment`: fresh id, status `pending`, no
signature or error yet. -/
def MemStorage.createPayment (s : MemStorage) (submissionId taskId workerId : ℕ)
    (walletAddress : String) (amountSol : ℚ) : Payment × MemStorage :=
  let p : Payment :=
    { id := s.nextId, submissionId := submissionId, taskId := taskId,
      workerId := workerId, walletAddress := walletAddress,
      amountSol := amountSol, status := PaymentStatus.pending,
      transactionSignature := none, errorMessage := none,
      createdAt := s.now, completedAt := none }
  (p, { s with payments := s.payments ++ [p], nextId := s.nextId + 1,
               now := s.now + 1 })

/-- Source `MemStorage.updatePaymentStatus`: set the status, record the
signature and error text when truthy, and stamp `completedAt` exactly
when the new status is `completed`. -/
def MemStorage.updatePaymentStatus (s : MemStorage) (id : ℕ)
    (status : PaymentStatus) (signature : Option String)
    (error : Option String) : MemStorage :=
  { s with
    payments := setById Payment.id s.payments id fun p =>
      { p with status := status,
               transactionSignature :=
                 if strTruthy signature then signature
                 else p.transactionSignature,
               errorMessage :=
                 if strTruthy error then error else p.errorMessage,
               completedAt :=
                 if status = PaymentStatus.completed then some s.now
                 else p.completedAt }
    now := s.now + 1 }

/-- Source `MemStorage.getBudget`. -/
def MemStorage.getBudget (s : MemStorage) : Option Budget :=
  s.budgetData

/-- Source `MemStorage.updateBudget`: create the record lazily (with
`totalPaidOut` zero) on first call, otherwise overwrite the balance and,
when truthy, the funding address. -/
def MemStorage.updateBudget (s : MemStorage) (balanceSol : ℚ)
    (walletAddress : Option String) : MemStorage :=
  match s.budgetData with
  | none =>
    { s with
      budgetData := some
        { id := s.nextId, walletAddress := walletAddress.getD "",
          balanceSol := balanceSol, totalPaidOut := 0, lastUpdated := s.now },
      nextId := s.nextId + 1, now := s.now + 1 }
  | some b =>
    { s with
      budgetData := some
        { b with balanceSol := balanceSol,
                 walletAddress :=
                   if strTruthy walletAddress then walletAddress.getD ""
                   else b.walletAddress,
                 lastUpdated := s.now },
      now := s.now + 1 }

/-- Source `MemStorage.addToPaidOut`: add the amount to the cumulative
paid-out total — silently a no-op when no budget record exists yet. -/
def MemStorage.addToPaidOut (s : MemStorage) (amount : ℚ) : MemStorage :=
  match s.budgetData with
  | none => s
  | some b =>
    { s with
      budgetData := some
        { b with totalPaidOut := b.totalPaidOut + amount, lastUpdated := s.now },
      now := s.now + 1 }

/-! ## External collaborators and the judge service -/

/-- Maximum payment amount per transaction in SOL
(`MAX_PAYMENT_AMOUNT_SOL` of the routing file). -/
def MAX_PAYMENT_AMOUNT_SOL : ℚ := 10

/-- Raw outcome of one judge transport call
(`anthropic.messages.create` plus response extraction and JSON parsing
inside `verifySubmission` of `server/services/claude.ts`): either a
thrown transport/parse error with its message, or a parsed verdict
object with its raw fields (`approved` after the `=== true` coercion,
`score` after `Number(...) || 0`, `reasoning` and `suggestions` as
parsed). -/
inductive JudgeRaw where
  | fail (msg : String)
  | ok (approved : Bool) (score : ℚ) (reasoning : String)
      (suggestions : Option (List String))
deriving DecidableEq, Repr

/-- Score clamping of `server/services/claude.ts`:
`Math.max(0, Math.min(100, ...))`. -/
def clampScore (q : ℚ) : ℚ := max 0 (min 100 q)

/-- Source `verifySubmission` of `server/services/claude.ts`, as a total
function of the raw transport outcome: a parsed verdict is normalised
(score clamped, empty reasoning replaced), and any thrown error is
caught and returned as a result whose reasoning carries the
`"Verification failed:"` marker. -/
def verifySubmission (raw : JudgeRaw) : VerificationResult :=
  match raw with
  | JudgeRaw.ok approved score reasoning suggestions =>
    { approved := approved, score := clampScore score,
      reasoning := if reasoning = "" then "No reasoning provided" else reasoning,
      suggestions := suggestions }
  | JudgeRaw.fail msg =>
    { approved := false, score := 0,
      reasoning := "Verification failed: " ++ msg,
      suggestions := some ["Please try submitting again with clearer proof"] }

/-- Result of the external rewards-source claim call
(`claimCreatorRewards` of `server/services/pumpportal.ts`), restricted
to the fields the routes consume. -/
structure ClaimResult where
  success : Bool
  amountClaimed : Option ℚ
deriving DecidableEq, Repr

/-- Truthiness of a JavaScript optional-number value: present and
non-zero. -/
def numTruthy : Option ℚ → Bool
  | some q => q ≠ 0
  | none => false

/-- The external collaborators as oracles: the wallet-address validator
(`isValidWalletAddress`), the judge transport behind `verifySubmission`
(a function of exactly the arguments the route passes), the funds
executor (`sendPayment`), the confirmation checker
(`verifyTransaction`, restricted to its consumed `confirmed` field),
and the password hasher (`bcrypt.hash`). -/
structure Ext where
  validAddr : String → Bool
  judge : Task → String → String → Option String → JudgeRaw
  send : String → ℚ → TransactionResult
  confirm : String → Bool
  hash : String → String

/-- Observable actions of a route run, in order: store commits of entity
status/accrual updates, and calls to the external collaborators. -/
inductive Ev where
  | commitTask (id : ℕ) (status : TaskStatus)
  | commitSubmission (id : ℕ) (status : SubmissionStatus)
  | commitPayment (id : ℕ) (status : PaymentStatus)
  | commitEarnings (workerId : ℕ) (amount : ℚ)
  | commitPaidOut (amount : ℚ)
  | callJudge (submissionId : ℕ)
  | callTransfer (walletAddress : String) (amount : ℚ)
  | callConfirm (signature : String)
deriving DecidableEq, Repr

/-! ## Route handlers

Each route of the routing file's `registerRoutes` is a pure function of
the store, the oracles and the request, returning its response, the
store after the call, and the trace of observable actions. -/

/-- Responses of `POST /api/users`. -/
inductive CreateUserResp where
  | missingFields
  | shortPassword
  | invalidWallet
  | usernameExists
  | created (id : ℕ)
deriving DecidableEq, Repr

/-- Source `POST /api/users`: validate, reject duplicates, hash the
password, store the worker. -/
def createUserRoute (ext : Ext) (s : MemStorage) (username password : String)
    (walletAddress : Option String) : CreateUserResp × MemStorage :=
  if username = "" ∨ password = "" then (CreateUserResp.missingFields, s)
  else if password.length < 6 then (CreateUserResp.shortPassword, s)
  else if strTruthy walletAddress ∧ ¬ ext.validAddr (walletAddress.getD "") then
    (CreateUserResp.invalidWallet, s)
  else if (s.getUserByUsername username).isSome then
    (CreateUserResp.usernameExists, s)
  else
    let (u, s1) := s.createUser username (ext.hash password) walletAddress
    (CreateUserResp.created u.id, s1)

/-- Request body of `POST /api/tasks` after `createTaskRequestSchema`
(`shared/schema.ts`). -/
structure CreateTaskRequest where
  title : String
  description : String
  taskType : String
  rewardSol : ℚ
  verificationCriteria : String
  maxSubmissions : ℕ
  deadline : Option ℕ
deriving DecidableEq, Repr

/-- Validation of `createTaskRequestSchema`: non-empty texts, a known
task type, a positive reward, a positive submissions cap. -/
def CreateTaskRequest.valid (r : CreateTaskRequest) : Prop :=
  r.title ≠ "" ∧ r.description ≠ "" ∧ r.verificationCriteria ≠ "" ∧
    r.taskType ∈ ["code", "social", "marketing", "design", "other"] ∧
    0 < r.rewardSol ∧ 1 ≤ r.maxSubmissions

instance (r : CreateTaskRequest) : Decidable r.valid := by
  unfold CreateTaskRequest.valid; infer_instance

/-- Responses of `POST /api/tasks`. -/
inductive CreateTaskResp where
  | invalid
  | exceedsMax
  | created (task : Task)
deriving DecidableEq, Repr

/-- Source `POST /api/tasks`: schema validation, the reward cap check,
then task creation. -/
def createTaskRoute (s : MemStorage) (r : CreateTaskRequest) :
    CreateTaskResp × MemStorage :=
  if ¬ r.valid then (CreateTaskResp.invalid, s)
  else if MAX_PAYMENT_AMOUNT_SOL < r.rewardSol then (CreateTaskResp.exceedsMax, s)
  else
    let (t, s1) := s.createTask r.title r.description r.taskType r.rewardSol
      r.verificationCriteria r.maxSubmissions r.deadline
    (CreateTaskResp.created t, s1)

/-- One iteration of the creation loop of `POST /api/tasks/generate`:
a generated task is stored with a submissions cap of 1 when its reward
is a positive amount within the cap, and skipped otherwise. -/
def createGeneratedTask (s : MemStorage) (title description taskType : String)
    (rewardSol : ℚ) (verificationCriteria : String) : MemStorage :=
  if rewardSol ≤ 0 ∨ MAX_PAYMENT_AMOUNT_SOL < rewardSol then s
  else (s.createTask title description taskType rewardSol
    verificationCriteria 1 none).2

/-- Responses of `POST /api/tasks/:id/claim`. -/
inductive ClaimTaskResp where
  | missingWorker
  | workerNotFound
  | taskNotFound
  | notOpen
  | claimed (task : Option Task)
deriving DecidableEq, Repr

/-- Source `POST /api/tasks/:id/claim`: only an existing worker may
claim an existing, still-open task. -/
def claimTaskRoute (s : MemStorage) (taskId workerId : ℕ) :
    ClaimTaskResp × MemStorage :=
  match s.getUser workerId with
  | none => (ClaimTaskResp.workerNotFound, s)
  | some _ =>
    match s.getTask taskId with
    | none => (ClaimTaskResp.taskNotFound, s)
    | some task =>
      if task.status ≠ TaskStatus.open_ then (ClaimTaskResp.notOpen, s)
      else
        let s1 := s.assignTask taskId workerId
        (ClaimTaskResp.claimed (s1.getTask taskId), s1)

/-- Request body of `POST /api/submissions` after
`submitProofRequestSchema` (`shared/schema.ts`). -/
structure SubmitProofRequest where
  taskId : ℕ
  workerId : ℕ
  proofType : String
  proofData : String
  proofDescription : Option String
deriving DecidableEq, Repr

/-- Validation of `submitProofRequestSchema`: a known proof type and a
non-empty proof payload. -/
def SubmitProofRequest.valid (r : SubmitProofRequest) : Prop :=
  r.proofType ∈ ["image", "url", "text"] ∧ r.proofData ≠ ""

instance (r : SubmitProofRequest) : Decidable r.valid := by
  unfold SubmitProofRequest.valid; infer_instance

/-- Responses of `POST /api/submissions`. -/
inductive SubmitResp where
  | invalid
  | workerNotFound
  | taskNotFound
  | taskClosed
  | maxReached
  | created (submission : Submission)
deriving DecidableEq, Repr

/-- Source `POST /api/submissions`: validate, check the worker and the
task, reject closed tasks and a reached submissions cap, then store the
submission and bump the task's counter. -/
def createSubmissionRoute (s : MemStorage) (r : SubmitProofRequest) :
    SubmitResp × MemStorage :=
  if ¬ r.valid then (SubmitResp.invalid, s)
  else
    match s.getUser r.workerId with
    | none => (SubmitResp.workerNotFound, s)
    | some _ =>
      match s.getTask r.taskId with
      | none => (SubmitResp.taskNotFound, s)
      | some task =>
        if task.status = TaskStatus.completed ∨ task.status = TaskStatus.cancelled then
          (SubmitResp.taskClosed, s)
        else if task.maxSubmissions ≠ 0 ∧ task.maxSubmissions ≤ task.currentSubmissions then
          (SubmitResp.maxReached, s)
        else
          let (x, s1) := s.createSubmission r.taskId r.workerId r.proofType
            r.proofData r.proofDescription
          let s2 := s1.incrementTaskSubmissions task.id
          (SubmitResp.created x, s2)

/-- The verdict-recording block shared verbatim by
`POST /api/submissions/:id/verify` and the `POST /api/verify/batch`
loop body: set the submission's status with the reasoning and score, and
on approval create the payment (when the worker has a truthy payout
address, with the amount copied from the task's reward) and mark the
task completed. -/
def recordVerdict (s : MemStorage) (submission : Submission) (task : Task)
    (result : VerificationResult) : MemStorage × List Ev :=
  if result.approved then
    let s1 := s.updateSubmissionStatus submission.id
      SubmissionStatus.approved (some result.reasoning) (some result.score)
    let s2 :=
      match s1.getUser submission.workerId with
      | some worker =>
        match worker.walletAddress with
        | some addr =>
          if addr ≠ "" then
            (s1.createPayment submission.id task.id submission.workerId
              addr task.rewardSol).2
          else s1
        | none => s1
      | none => s1
    let s3 := s2.updateTaskStatus task.id TaskStatus.completed
    (s3, [Ev.commitSubmission submission.id SubmissionStatus.approved,
          Ev.commitTask task.id TaskStatus.completed])
  else
    (s.updateSubmissionStatus submission.id SubmissionStatus.rejected
      (some result.reasoning) (some result.score),
     [Ev.commitSubmission submission.id SubmissionStatus.rejected])

/-- The judge call as issued by both verification routes:
`verifySubmission(task, submission.proofType, submission.proofData,
submission.proofDescription || undefined)`. -/
def judgeResult (ext : Ext) (task : Task) (submission : Submission) :
    VerificationResult :=
  verifySubmission (ext.judge task submission.proofType submission.proofData
    (if strTruthy submission.proofDescription then submission.proofDescription
     else none))

/-- Responses of `POST /api/submissions/:id/verify`. -/
inductive VerifyResp where
  | notFound (what : String)
  | alreadyVerified
  | serviceError (details : String)
  | verified (submission : Option Submission) (verification : VerificationResult)
deriving DecidableEq, Repr

/-- Source `POST /api/submissions/:id/verify`: guard the submission and
its task, call the judge, surface a transport/parse failure (recognised
by the `"Verification failed:"` marker) as a distinct service error
without touching the store, otherwise record the verdict and — on
approval — create the payment when the worker has a truthy payout
address, and complete the task. -/
def verifyRoute (ext : Ext) (s : MemStorage) (id : ℕ) :
    VerifyResp × MemStorage × List Ev :=
  match s.getSubmission id with
  | none => (VerifyResp.notFound "Submission not found", s, [])
  | some submission =>
    if submission.status ≠ SubmissionStatus.pending then
      (VerifyResp.alreadyVerified, s, [])
    else
      match s.getTask submission.taskId with
      | none => (VerifyResp.notFound "Task not found", s, [])
      | some task =>
        let result := judgeResult ext task submission
        if jsStartsWith result.reasoning "Verification failed:" then
          (VerifyResp.serviceError result.reasoning, s, [Ev.callJudge submission.id])
        else
          let rv := recordVerdict s submission task result
          (VerifyResp.verified (rv.1.getSubmission submission.id) result,
            rv.1, Ev.callJudge submission.id :: rv.2)

/-- One per-item result of `POST /api/verify/batch`: either the
service-error entry or the verdict entry pushed onto `results`. -/
inductive VerifyEntry where
  | err (submissionId : ℕ) (error : String)
  | verdict (submissionId : ℕ) (approved : Bool) (score : ℚ)
deriving DecidableEq, Repr

/-- Submission id carried by a batch-verification entry. -/
def VerifyEntry.submissionId : VerifyEntry → ℕ
  | VerifyEntry.err i _ => i
  | VerifyEntry.verdict i _ _ => i

/-- One iteration of the `POST /api/verify/batch` loop: a submission
whose task is missing is skipped with no entry (`continue`); a judge
transport failure yields an error entry with no store change; otherwise
the verdict is recorded exactly as in the single-submission flow. -/
def verifyBatchItem (ext : Ext) (s : MemStorage) (submission : Submission) :
    Option VerifyEntry × MemStorage × List Ev :=
  match s.getTask submission.taskId with
  | none => (none, s, [])
  | some task =>
    let result := judgeResult ext task submission
    if jsStartsWith result.reasoning "Verification failed:" then
      (some (VerifyEntry.err submission.id "Verification service error"), s,
        [Ev.callJudge submission.id])
    else
      let rv := recordVerdict s submission task result
      (some (VerifyEntry.verdict submission.id result.approved result.score),
        rv.1, Ev.callJudge submission.id :: rv.2)

/-- The `POST /api/verify/batch` loop over a list of submissions. -/
def verifyBatchGo (ext : Ext) : List Submission → MemStorage →
    List VerifyEntry × MemStorage × List Ev
  | [], s => ([], s, [])
  | submission :: rest, s =>
    let item := verifyBatchItem ext s submission
    let next := verifyBatchGo ext rest item.2.1
    (match item.1 with
     | some entry => entry :: next.1
     | none => next.1, next.2.1, item.2.2 ++ next.2.2)

/-- Source `POST /api/verify/batch`: iterate the pending submissions in
store order, collecting per-item entries; the aggregate `processed`
count of the response is the length of the entry list. -/
def verifyBatch (ext : Ext) (s : MemStorage) :
    List VerifyEntry × MemStorage × List Ev :=
  verifyBatchGo ext s.getPendingSubmissions s

/-- Responses of `POST /api/payments/:id/process`. -/
inductive ProcessResp where
  | notFound
  | alreadyProcessed
  | invalidAmount
  | exceedsMax
  | invalidAddress
  | notConfirmed
  | success (signature : String)
  | sendFailed (error : Option String)
deriving DecidableEq, Repr

/-- Source `POST /api/payments/:id/process`: guard the pending payment,
validate the amount against positivity and the cap, validate the
address (marking the payment failed on a malformed one, with no
external call), commit `processing`, invoke the funds executor, then
the confirmation checker; only on confirmed success commit `completed`
with the signature, the worker's earnings and the paid-out accrual. -/
def processPayment (ext : Ext) (s : MemStorage) (id : ℕ) :
    ProcessResp × MemStorage × List Ev :=
  match s.getPayment id with
  | none => (ProcessResp.notFound, s, [])
  | some payment =>
    if payment.status ≠ PaymentStatus.pending then
      (ProcessResp.alreadyProcessed, s, [])
    else if payment.amountSol ≤ 0 then (ProcessResp.invalidAmount, s, [])
    else if MAX_PAYMENT_AMOUNT_SOL < payment.amountSol then
      (ProcessResp.exceedsMax, s, [])
    else if ¬ ext.validAddr payment.walletAddress then
      let s1 := s.updatePaymentStatus payment.id PaymentStatus.failed none
        (some "Invalid wallet address")
      (ProcessResp.invalidAddress, s1,
        [Ev.commitPayment payment.id PaymentStatus.failed])
    else
      let s2 := s.updatePaymentStatus payment.id PaymentStatus.processing none none
      let result := ext.send payment.walletAddress payment.amountSol
      let tr0 := [Ev.commitPayment payment.id PaymentStatus.processing,
                  Ev.callTransfer payment.walletAddress payment.amountSol]
      match result.success, result.signature with
      | true, some sig =>
        if sig = "" then
          let s3 := s2.updatePaymentStatus payment.id PaymentStatus.failed none
            result.error
          (ProcessResp.sendFailed result.error, s3,
            tr0 ++ [Ev.commitPayment payment.id PaymentStatus.failed])
        else if ¬ ext.confirm sig then
          let s3 := s2.updatePaymentStatus payment.id PaymentStatus.failed none
            (some "Transaction not confirmed")
          (ProcessResp.notConfirmed, s3,
            tr0 ++ [Ev.callConfirm sig,
                    Ev.commitPayment payment.id PaymentStatus.failed])
        else
          let s3 := s2.updatePaymentStatus payment.id PaymentStatus.completed
            (some sig) none
          let s4 := s3.updateUserEarnings payment.workerId payment.amountSol
          let s5 := s4.addToPaidOut payment.amountSol
          (ProcessResp.success sig, s5,
            tr0 ++ [Ev.callConfirm sig,
                    Ev.commitPayment payment.id PaymentStatus.completed,
                    Ev.commitEarnings payment.workerId payment.amountSol,
                    Ev.commitPaidOut payment.amountSol])
      | _, _ =>
        let s3 := s2.updatePaymentStatus payment.id PaymentStatus.failed none
          result.error
        (ProcessResp.sendFailed result.error, s3,
          tr0 ++ [Ev.commitPayment payment.id PaymentStatus.failed])

/-- One per-item result of `POST /api/payments/process-all`, as pushed
onto `results`. -/
structure PayEntry where
  paymentId : ℕ
  success : Bool
  signature : Option String
  error : Option String
deriving DecidableEq, Repr

/-- One iteration of the `POST /api/payments/process-all` loop: an
invalid or over-cap amount and a malformed address each mark the
payment failed and push an error entry; otherwise commit `processing`,
invoke the funds executor, and on truthy success commit `completed`
with the signature, the earnings and the paid-out accrual — with no
confirmation-checker call in this flow. -/
def processAllItem (ext : Ext) (s : MemStorage) (payment : Payment) :
    PayEntry × MemStorage × List Ev :=
  if payment.amountSol ≤ 0 ∨ MAX_PAYMENT_AMOUNT_SOL < payment.amountSol then
    let s1 := s.updatePaymentStatus payment.id PaymentStatus.failed none
      (some "Invalid payment amount")
    ({ paymentId := payment.id, success := false, signature := none,
       error := some "Invalid payment amount" }, s1,
      [Ev.commitPayment payment.id PaymentStatus.failed])
  else if ¬ ext.validAddr payment.walletAddress then
    let s1 := s.updatePaymentStatus payment.id PaymentStatus.failed none
      (some "Invalid wallet address")
    ({ paymentId := payment.id, success := false, signature := none,
       error := some "Invalid wallet address" }, s1,
      [Ev.commitPayment payment.id PaymentStatus.failed])
  else
    let s2 := s.updatePaymentStatus payment.id PaymentStatus.processing none none
    let result := ext.send payment.walletAddress payment.amountSol
    let tr0 := [Ev.commitPayment payment.id PaymentStatus.processing,
                Ev.callTransfer payment.walletAddress payment.amountSol]
    match result.success, result.signature with
    | true, some sig =>
      if sig = "" then
        let s3 := s2.updatePaymentStatus payment.id PaymentStatus.failed none
          result.error
        ({ paymentId := payment.id, success := result.success,
           signature := result.signature, error := result.error }, s3,
          tr0 ++ [Ev.commitPayment payment.id PaymentStatus.failed])
      else
        let s3 := s2.updatePaymentStatus payment.id PaymentStatus.completed
          (some sig) none
        let s4 := s3.updateUserEarnings payment.workerId payment.amountSol
        let s5 := s4.addToPaidOut payment.amountSol
        ({ paymentId := payment.id, success := result.success,
           signature := result.signature, error := result.error }, s5,
          tr0 ++ [Ev.commitPayment payment.id PaymentStatus.completed,
                  Ev.commitEarnings payment.workerId payment.amountSol,
                  Ev.commitPaidOut payment.amountSol])
    | _, _ =>
      let s3 := s2.updatePaymentStatus payment.id PaymentStatus.failed none
        result.error
      ({ paymentId := payment.id, success := result.success,
         signature := result.signature, error := result.error }, s3,
        tr0 ++ [Ev.commitPayment payment.id PaymentStatus.failed])

/-- The `POST /api/payments/process-all` loop over a list of payments. -/
def processAllGo (ext : Ext) : List Payment → MemStorage →
    List PayEntry × MemStorage × List Ev
  | [], s => ([], s, [])
  | payment :: rest, s =>
    let item := processAllItem ext s payment
    let next := processAllGo ext rest item.2.1
    (item.1 :: next.1, next.2.1, item.2.2 ++ next.2.2)

/-- Source `POST /api/payments/process-all`: iterate the pending
payments in store order, collecting one entry per payment; the
aggregate `processed` count of the response is the length of the entry
list. -/
def processAll (ext : Ext) (s : MemStorage) :
    List PayEntry × MemStorage × List Ev :=
  processAllGo ext s.getPendingPayments s

/-- Responses of `POST /api/budget/claim-rewards`. -/
inductive ClaimRewardsResp where
  | missingWallet
  | invalidWallet
  | done (result : ClaimResult)
deriving DecidableEq, Repr

/-- Source `POST /api/budget/claim-rewards`: resolve and validate the
funding address, call the external rewards source, and on a truthy
claimed amount add it to the stored balance (creating the budget record
lazily). -/
def claimRewardsRoute (ext : Ext) (s : MemStorage) (wallet : Option String)
    (result : ClaimResult) : ClaimRewardsResp × MemStorage :=
  if ¬ strTruthy wallet then (ClaimRewardsResp.missingWallet, s)
  else if ¬ ext.validAddr (wallet.getD "") then (ClaimRewardsResp.invalidWallet, s)
  else if result.success ∧ numTruthy result.amountClaimed then
    let currentBalance := (s.getBudget.map Budget.balanceSol).getD 0
    let s1 := s.updateBudget (currentBalance + result.amountClaimed.getD 0) wallet
    (ClaimRewardsResp.done result, s1)
  else (ClaimRewardsResp.done result, s)

/-! ## The system as a transition relation

One step is one store-mutating route call, with the oracle responses of
that call chosen arbitrarily; read-only routes do not change the store
and need no step. A store is reachable when some sequence of route
calls produces it from the fresh store. -/

/-- One store-mutating route call. -/
inductive Step : MemStorage → MemStorage → Prop where
  | createUser (s : MemStorage) (ext : Ext) (username password : String)
      (walletAddress : Option String) :
      Step s (createUserRoute ext s username password walletAddress).2
  | createTask (s : MemStorage) (r : CreateTaskRequest) :
      Step s (createTaskRoute s r).2
  | generated (s : MemStorage) (title description taskType : String)
      (rewardSol : ℚ) (verificationCriteria : String) :
      Step s (createGeneratedTask s title description taskType rewardSol
        verificationCriteria)
  | claimTask (s : MemStorage) (taskId workerId : ℕ) :
      Step s (claimTaskRoute s taskId workerId).2
  | createSubmission (s : MemStorage) (r : SubmitProofRequest) :
      Step s (createSubmissionRoute s r).2
  | verify (s : MemStorage) (ext : Ext) (id : ℕ) :
      Step s (verifyRoute ext s id).2.1
  | verifyAll (s : MemStorage) (ext : Ext) :
      Step s (verifyBatch ext s).2.1
  | processOne (s : MemStorage) (ext : Ext) (id : ℕ) :
      Step s (processPayment ext s id).2.1
  | processEvery (s : MemStorage) (ext : Ext) :
      Step s (processAll ext s).2.1
  | claimRewards (s : MemStorage) (ext : Ext) (wallet : Option String)
      (result : ClaimResult) :
      Step s (claimRewardsRoute ext s wallet result).2

/-- A store is reachable when a sequence of route calls produces it from
the fresh store. -/
def Reachable (s : MemStorage) : Prop :=
  Relation.ReflTransGen Step MemStorage.init s

/-- Sum of the amounts of the completed payments of the store. -/
def completedSum (s : MemStorage) : ℚ :=
  (s.payments.map fun p =>
    if p.status = PaymentStatus.completed then p.amountSol else 0).sum

/-- Structural well-formedness maintained by every route call: distinct
fresh identifiers, submission caps respected with the cap-reached status
rule, every submission rooted in an existing task, and the
payment/submission correspondence — every payment references an approved
submission, at most one payment per submission, and every approved
submission whose worker has a truthy payout address has a payment whose
amount equals its task's reward. -/
structure GoodState (s : MemStorage) : Prop where
  usersNodup : (s.users.map User.id).Nodup
  tasksNodup : (s.tasks.map Task.id).Nodup
  subsNodup : (s.submissions.map Submission.id).Nodup
  paysNodup : (s.payments.map Payment.id).Nodup
  usersLt : ∀ u ∈ s.users, u.id < s.nextId
  tasksLt : ∀ t ∈ s.tasks, t.id < s.nextId
  subsLt : ∀ x ∈ s.submissions, x.id < s.nextId
  paysLt : ∀ p ∈ s.payments, p.id < s.nextId
  subWorkerLt : ∀ x ∈ s.submissions, x.workerId < s.nextId
  taskMaxPos : ∀ t ∈ s.tasks, 1 ≤ t.maxSubmissions
  taskCap : ∀ t ∈ s.tasks, t.currentSubmissions ≤ t.maxSubmissions
  taskCapStatus : ∀ t ∈ s.tasks, t.maxSubmissions ≤ t.currentSubmissions →
    t.status = TaskStatus.pending_verification ∨ t.status = TaskStatus.completed ∨
      t.status = TaskStatus.cancelled
  subTask : ∀ x ∈ s.submissions, x.taskId ∈ s.tasks.map Task.id
  paySub : ∀ p ∈ s.payments, ∃ x ∈ s.submissions,
    x.id = p.submissionId ∧ x.status = SubmissionStatus.approved
  payOnce : ∀ p ∈ s.payments, ∀ q ∈ s.payments,
    p.submissionId = q.submissionId → p = q
  approvedPaid : ∀ x ∈ s.submissions, x.status = SubmissionStatus.approved →
    ∀ u ∈ s.users, u.id = x.workerId → strTruthy u.walletAddress = true →
    ∃ p ∈ s.payments, p.submissionId = x.id ∧
      ∀ t ∈ s.tasks, t.id = x.taskId → p.amountSol = t.rewardSol

/-- The budget-ledger consistency property: the budget record exists and
its cumulative paid-out total equals the sum of the completed payment
amounts. -/
def BudgetOK (s : MemStorage) : Prop :=
  ∃ b, s.budgetData = some b ∧ b.totalPaidOut = completedSum s

/-- HTTP status code attached to each single-submission verification
response in the routing file: 404 for a missing entity, 400 for the
already-decided guard, 500 for the judge-transport failure, 200 for a
recorded verdict. -/
def VerifyResp.statusCode : VerifyResp → ℕ
  | VerifyResp.notFound _ => 404
  | VerifyResp.alreadyVerified => 400
  | VerifyResp.serviceError _ => 500
  | VerifyResp.verified _ _ => 200

/-- Whether an observable action is a funds-transfer call. -/
def Ev.isTransferCall : Ev → Bool
  | Ev.callTransfer _ _ => true
  | _ => false

/-- Whether an observable action is a confirmation-checker call. -/
def Ev.isConfirmCall : Ev → Bool
  | Ev.callConfirm _ => true
  | _ => false

/-! ## A concrete operating scenario

One worker with a payout address, one task with reward `1/20` SOL and a
submissions cap of 1, one submission, approved by the judge, leaving one
pending payment.  The oracles below pin the external collaborators:
every address validates, the funds executor succeeds with signature
`"sig1"`, and the confirmation checker reports every signature
unconfirmed. -/

/-- Baseline oracles: judge approves with score 90, transfer succeeds,
confirmation always reports unconfirmed. -/
def ext0 : Ext :=
  { validAddr := fun _ => true,
    judge := fun _ _ _ _ => JudgeRaw.ok true 90 "Looks good" none,
    send := fun _ _ => { success := true, signature := some "sig1", error := none },
    confirm := fun _ => false,
    hash := fun p => p }

/-- Oracles whose judge transport throws. -/
def extJF : Ext :=
  { ext0 with judge := fun _ _ _ _ => JudgeRaw.fail "boom" }

/-- Oracles whose judge returns a genuine approving verdict whose
free-text reasoning happens to begin with the transport-failure
marker. -/
def extTricky : Ext :=
  { ext0 with judge := fun _ _ _ _ =>
      JudgeRaw.ok true 95 "Verification failed: backend hiccup, yet the work is correct" none }

/-- The scenario's task-creation request. -/
def reqT : CreateTaskRequest :=
  { title := "t", description := "d", taskType := "code", rewardSol := 1/20,
    verificationCriteria := "v", maxSubmissions := 1, deadline := none }

/-- The scenario's proof-submission request. -/
def reqS : SubmitProofRequest :=
  { taskId := 1, workerId := 0, proofType := "text", proofData := "p",
    proofDescription := none }

/-- After registering worker `"alice"` (id 0) with payout address
`"WALLET"`. -/
def st1 : MemStorage :=
  (createUserRoute ext0 MemStorage.init "alice" "secret1" (some "WALLET")).2

/-- After creating the task (id 1). -/
def st2 : MemStorage := (createTaskRoute st1 reqT).2

/-- After the worker claims the task. -/
def st3 : MemStorage := (claimTaskRoute st2 1 0).2

/-- After submitting the proof (submission id 2): the cap of 1 is
reached, the task moves to `pending_verification`. -/
def st4 : MemStorage := (createSubmissionRoute st3 reqS).2

/-- After the judge approves submission 2: payment 3 is pending over
`1/20` SOL and the task is completed. -/
def st5 : MemStorage := (verifyRoute ext0 st4 2).2.1

/-- After batch settlement under the never-confirming oracles: payment 3
ends `completed` although no confirmation call was made. -/
def stB : MemStorage := (processAll ext0 st5).2.1

/-- After claiming creator rewards on `stB`: the budget record is
created lazily with a zero paid-out total, although a completed payment
exists. -/
def stC : MemStorage :=
  (claimRewardsRoute ext0 stB (some "WALLET") { success := true, amountClaimed := some 1 }).2

/-- After claiming creator rewards on `st5` (before any settlement): the
budget record is created while the completed-payment sum is still 0. -/
def stD : MemStorage :=
  (claimRewardsRoute ext0 st5 (some "WALLET") { success := true, amountClaimed := some 1 }).2

/-- The pending submission stored in `st4`. -/
def sub0 : Submission :=
  Submission.mk 2 1 0 "text" "p" none SubmissionStatus.pending none none 1 none

/-- The approved submission stored in `st5`. -/
def subA : Submission :=
  Submission.mk 2 1 0 "text" "p" none SubmissionStatus.approved
    (some "Looks good") (some 90) 1 (some 2)

/-- The task stored in `st4`. -/
def task1 : Task :=
  Task.mk 1 "t" "d" "code" (1/20) TaskStatus.pending_verification "v" 1 1
    none 0 (some 0)

/-- The pending payment stored in `st5`. -/
def pay3 : Payment :=
  Payment.mk 3 2 1 0 "WALLET" (1/20) PaymentStatus.pending none none 3 none

/-- The budget record of `stD`. -/
def bD : Budget := Budget.mk 4 "WALLET" 1 0 4

/-- The parallel scenario with worker `"bob"` who has no payout address
on file. -/
def nst1 : MemStorage :=
  (createUserRoute ext0 MemStorage.init "bob" "secret1" none).2

/-- No-wallet scenario: after creating the task. -/
def nst2 : MemStorage := (createTaskRoute nst1 reqT).2

/-- No-wallet scenario: after the claim. -/
def nst3 : MemStorage := (claimTaskRoute nst2 1 0).2

/-- No-wallet scenario: after the submission. -/
def nst4 : MemStorage := (createSubmissionRoute nst3 reqS).2

/-- No-wallet scenario: after the judge approves — the submission is
approved but no payment was created. -/
def nst5 : MemStorage := (verifyRoute ext0 nst4 2).2.1

/-- A pending payment whose amount `11` exceeds the per-transaction
cap. -/
def bigPayment : Payment :=
  Payment.mk 0 1 2 3 "WALLET" 11 PaymentStatus.pending none none 0 none

/-- A store holding only the over-cap pending payment, for comparing the
two settlement flows on it. -/
def sBig : MemStorage := MemStorage.mk [] [] [] [bigPayment] none 4 0

/-! ## Store-update toolkit -/

/-- Unfolding `setById` on a cons cell. -/
theorem setById_cons {α : Type} (idOf : α → ℕ) (a : α) (l : List α) (i : ℕ)
    (f : α → α) :
    setById idOf (a :: l) i f =
      (if idOf a = i then f a else a) :: setById idOf l i f := rfl

/-- An element whose id is not the updated one is untouched by
`setById`. -/
theorem mem_setById_of_ne {α : Type} {idOf : α → ℕ} {l : List α} {i : ℕ}
    {f : α → α} {y : α} (hy : y ∈ l) (hne : idOf y ≠ i) :
    y ∈ setById idOf l i f := by
  unfold setById
  have h := List.mem_map_of_mem (fun a => if idOf a = i then f a else a) hy
  have h2 : (if idOf y = i then f y else y) ∈
      List.map (fun a => if idOf a = i then f a else a) l := h
  rwa [if_neg hne] at h2

/-- Every element of an update is the image of one of the original
elements. -/
theorem of_mem_setById {α : Type} {idOf : α → ℕ} {l : List α} {i : ℕ}
    {f : α → α} {x : α} (hx : x ∈ setById idOf l i f) :
    ∃ a ∈ l, x = if idOf a = i then f a else a := by
  simpa [setById, List.mem_map, eq_comm] using hx

/-- An id-preserving update leaves the id list unchanged. -/
theorem setById_map_id {α : Type} {idOf : α → ℕ} {l : List α} {i : ℕ}
    {f : α → α} (hf : ∀ a, idOf (f a) = idOf a) :
    (setById idOf l i f).map idOf = l.map idOf := by
  induction l with
  | nil => rfl
  | cons a l ih =>
    rw [setById_cons, List.map_cons, List.map_cons, ih]
    by_cases h : idOf a = i <;> simp [h, hf]

/-- When no element carries the updated id, `setById` is the
identity. -/
theorem setById_eq_of_forall_ne {α : Type} {idOf : α → ℕ} {l : List α}
    {i : ℕ} {f : α → α} (h : ∀ a ∈ l, idOf a ≠ i) :
    setById idOf l i f = l := by
  induction l with
  | nil => rfl
  | cons a l ih =>
    rw [setById_cons, if_neg (h a (by simp)),
      ih fun c hc => h c (by simp [hc])]

/-- Finding by id after an id-preserving update: the sought element is
the image of the original one when the ids coincide, and the search is
unchanged otherwise. -/
theorem find?_setById {α : Type} {idOf : α → ℕ} {l : List α} {i : ℕ}
    {f : α → α} (hf : ∀ a, idOf (f a) = idOf a) (j : ℕ) :
    (setById idOf l i f).find? (fun a => idOf a = j) =
      if i = j then (l.find? fun a => idOf a = j).map f
      else l.find? fun a => idOf a = j := by
  induction l with
  | nil => simp [setById]
  | cons a l ih =>
    rw [setById_cons]
    by_cases hai : idOf a = i
    · by_cases haj : idOf a = j
      · have hij : i = j := hai ▸ haj
        rw [if_pos hai, if_pos hij,
          List.find?_cons_of_pos _ (by simp [hf, haj]),
          List.find?_cons_of_pos _ (by simp [haj])]
        rfl
      · have hij : i ≠ j := fun h => haj (h ▸ hai)
        rw [if_pos hai, if_neg hij,
          List.find?_cons_of_neg _ (by simp [hf, haj]),
          List.find?_cons_of_neg _ (by simp [haj]), ih, if_neg hij]
    · by_cases haj : idOf a = j
      · have hij : i ≠ j := fun h => hai (h.symm ▸ haj)
        rw [if_neg hai, if_neg hij,
          List.find?_cons_of_pos _ (by simp [haj]),
          List.find?_cons_of_pos _ (by simp [haj])]
      · rw [if_neg hai, List.find?_cons_of_neg _ (by simp [haj]), ih]
        by_cases hij : i = j
        · rw [if_pos hij, if_pos hij,
            List.find?_cons_of_neg _ (by simp [haj])]
        · rw [if_neg hij, if_neg hij,
            List.find?_cons_of_neg _ (by simp [haj])]

/-- Summing a projection after an id-preserving update of the element
with a given id, for a list with distinct ids. -/
theorem sum_map_setById {α : Type} {idOf : α → ℕ} {g : α → ℚ} {l : List α}
    {i : ℕ} {f : α → α} {a : α} (hnd : (l.map idOf).Nodup) (ha : a ∈ l)
    (hai : idOf a = i) :
    ((setById idOf l i f).map g).sum = (l.map g).sum - g a + g (f a) := by
  induction l with
  | nil => cases ha
  | cons b l ih =>
    by_cases hba : b = a
    · subst hba
      have hrest : ∀ c ∈ l, idOf c ≠ i := by
        intro c hc hci
        have hm : idOf c ∈ List.map idOf l := List.mem_map_of_mem idOf hc
        rw [hci, ← hai] at hm
        exact (List.nodup_cons.mp hnd).1 hm
      rw [setById_cons, if_pos hai, setById_eq_of_forall_ne hrest,
        List.map_cons, List.sum_cons, List.map_cons, List.sum_cons]
      ring
    · have ha' : a ∈ l := by
        rcases List.mem_cons.mp ha with h | h
        · exact absurd h.symm hba
        · exact h
      have hbi : idOf b ≠ i := by
        intro hbi
        have hm : idOf a ∈ List.map idOf l := List.mem_map_of_mem idOf ha'
        rw [hai, ← hbi] at hm
        exact (List.nodup_cons.mp hnd).1 hm
      rw [setById_cons, if_neg hbi, List.map_cons, List.sum_cons,
        ih (List.nodup_cons.mp hnd).2 ha', List.map_cons, List.sum_cons]
      ring

/-- Image of an element under the update is in the update. -/
theorem mem_setById_image {α : Type} {idOf : α → ℕ} {l : List α} {i : ℕ}
    {f : α → α} {a : α} (ha : a ∈ l) :
    (if idOf a = i then f a else a) ∈ setById idOf l i f :=
  List.mem_map_of_mem _ ha

/-- The updated image of the element carrying the id is in the
update. -/
theorem mem_setById_self {α : Type} {idOf : α → ℕ} {l : List α} {i : ℕ}
    {f : α → α} {a : α} (ha : a ∈ l) (hai : idOf a = i) :
    f a ∈ setById idOf l i f := by
  have h := @mem_setById_image α idOf l i f a ha
  rwa [if_pos hai] at h

/-- Transfer of a pointwise property across an update whose function
preserves it. -/
theorem forall_mem_setById {α : Type} {idOf : α → ℕ} {l : List α} {i : ℕ}
    {f : α → α} {P : α → Prop} (hP : ∀ a ∈ l, P a)
    (hf : ∀ a, P a → P (f a)) : ∀ x ∈ setById idOf l i f, P x := by
  intro x hx
  obtain ⟨a, ha, rfl⟩ := of_mem_setById hx
  by_cases h : idOf a = i
  · rw [if_pos h]; exact hf a (hP a ha)
  · rw [if_neg h]; exact hP a ha

/-- Transfer of an existential witness across an update whose function
preserves the property. -/
theorem exists_mem_setById {α : Type} {idOf : α → ℕ} {l : List α} {i : ℕ}
    {f : α → α} {P : α → Prop} (h : ∃ a ∈ l, P a)
    (hf : ∀ a, P a → P (f a)) : ∃ x ∈ setById idOf l i f, P x := by
  obtain ⟨a, ha, hPa⟩ := h
  refine ⟨if idOf a = i then f a else a, mem_setById_image ha, ?_⟩
  by_cases hc : idOf a = i
  · rw [if_pos hc]; exact hf a hPa
  · rwa [if_neg hc]

/-- Ids pin elements in a list with distinct ids. -/
theorem mem_id_unique {α : Type} {idOf : α → ℕ} {l : List α} {a b : α}
    (hnd : (l.map idOf).Nodup) (ha : a ∈ l) (hb : b ∈ l)
    (hid : idOf a = idOf b) : a = b :=
  List.inj_on_of_nodup_map hnd ha hb hid

/-- Appending one fresh id keeps an id list duplicate-free. -/
theorem nodup_snoc_ids {ids : List ℕ} {n : ℕ} (h : ids.Nodup)
    (hlt : ∀ x ∈ ids, x < n) : (ids ++ [n]).Nodup := by
  rw [List.nodup_append]
  refine ⟨h, List.nodup_singleton n, ?_⟩
  intro x hx hn
  rcases List.mem_singleton.mp hn with rfl
  exact absurd (hlt x hx) (lt_irrefl x)

/-- A successful payment lookup returns a member carrying the id. -/
theorem getPayment_mem {s : MemStorage} {id : ℕ} {p : Payment}
    (h : s.getPayment id = some p) : p ∈ s.payments ∧ p.id = id := by
  unfold MemStorage.getPayment at h
  refine ⟨List.mem_of_find?_eq_some h, ?_⟩
  have hp := List.find?_some h
  simpa using hp

/-- A successful task lookup returns a member carrying the id. -/
theorem getTask_mem {s : MemStorage} {id : ℕ} {t : Task}
    (h : s.getTask id = some t) : t ∈ s.tasks ∧ t.id = id := by
  unfold MemStorage.getTask at h
  refine ⟨List.mem_of_find?_eq_some h, ?_⟩
  have hp := List.find?_some h
  simpa using hp

/-- A successful submission lookup returns a member carrying the id. -/
theorem getSubmission_mem {s : MemStorage} {id : ℕ} {x : Submission}
    (h : s.getSubmission id = some x) : x ∈ s.submissions ∧ x.id = id := by
  unfold MemStorage.getSubmission at h
  refine ⟨List.mem_of_find?_eq_some h, ?_⟩
  have hp := List.find?_some h
  simpa using hp

/-- A successful user lookup returns a member carrying the id. -/
theorem getUser_mem {s : MemStorage} {id : ℕ} {u : User}
    (h : s.getUser id = some u) : u ∈ s.users ∧ u.id = id := by
  unfold MemStorage.getUser at h
  refine ⟨List.mem_of_find?_eq_some h, ?_⟩
  have hp := List.find?_some h
  simpa using hp

/-- A task id present among the stored ids is found by `getTask`. -/
theorem getTask_isSome_of_mem {s : MemStorage} {id : ℕ}
    (h : id ∈ s.tasks.map Task.id) : ∃ t, s.getTask id = some t := by
  cases hf : s.getTask id with
  | some t => exact ⟨t, rfl⟩
  | none =>
    unfold MemStorage.getTask at hf
    obtain ⟨t, ht, hid⟩ := List.mem_map.mp h
    have := List.find?_eq_none.mp hf t ht
    simp [hid] at this

/-! ## Preservation of well-formedness by the store primitives -/

/-- Distinctness of ids survives an id-preserving update. -/
theorem nodup_setById {α : Type} {idOf : α → ℕ} {l : List α} {i : ℕ}
    {f : α → α} (h : (l.map idOf).Nodup) (hf : ∀ a, idOf (f a) = idOf a) :
    ((setById idOf l i f).map idOf).Nodup := by
  rw [setById_map_id hf]; exact h

/-- Membership of an id survives an id-preserving update. -/
theorem mem_map_id_setById {α : Type} {idOf : α → ℕ} {l : List α} {i : ℕ}
    {f : α → α} {j : ℕ} (h : j ∈ l.map idOf)
    (hf : ∀ a, idOf (f a) = idOf a) : j ∈ (setById idOf l i f).map idOf := by
  rw [setById_map_id hf]; exact h

/-- Well-formedness transfers to any store with the same entity lists
and a no-smaller freshness counter. -/
theorem good_of_parts {s s' : MemStorage} (hs : GoodState s)
    (hu : s'.users = s.users) (ht : s'.tasks = s.tasks)
    (hx : s'.submissions = s.submissions) (hp : s'.payments = s.payments)
    (hn : s.nextId ≤ s'.nextId) : GoodState s' := by
  refine ⟨?_, ?_, ?_, ?_, ?_, ?_, ?_, ?_, ?_, ?_, ?_, ?_, ?_, ?_, ?_, ?_⟩ <;>
    simp only [hu, ht, hx, hp] <;>
    first
    | exact hs.usersNodup
    | exact hs.tasksNodup
    | exact hs.subsNodup
    | exact hs.paysNodup
    | exact fun u hu2 => lt_of_lt_of_le (hs.usersLt u hu2) hn
    | exact fun t ht2 => lt_of_lt_of_le (hs.tasksLt t ht2) hn
    | exact fun x hx2 => lt_of_lt_of_le (hs.subsLt x hx2) hn
    | exact fun p hp2 => lt_of_lt_of_le (hs.paysLt p hp2) hn
    | exact fun x hx2 => lt_of_lt_of_le (hs.subWorkerLt x hx2) hn
    | exact hs.taskMaxPos
    | exact hs.taskCap
    | exact hs.taskCapStatus
    | exact hs.subTask
    | exact hs.paySub
    | exact hs.payOnce
    | exact hs.approvedPaid

/-- Payment status/signature/error updates keep the store
well-formed. -/
theorem good_updatePaymentStatus {s : MemStorage} (hs : GoodState s)
    {i : ℕ} {st : PaymentStatus} {sig err : Option String} :
    GoodState (s.updatePaymentStatus i st sig err) := by
  refine ⟨hs.usersNodup, hs.tasksNodup, hs.subsNodup, ?_, hs.usersLt,
    hs.tasksLt, hs.subsLt, ?_, hs.subWorkerLt, hs.taskMaxPos, hs.taskCap,
    hs.taskCapStatus, hs.subTask, ?_, ?_, ?_⟩
  · exact nodup_setById hs.paysNodup fun a => rfl
  · exact forall_mem_setById hs.paysLt fun a ha => ha
  · exact forall_mem_setById hs.paySub fun a ha => ha
  · intro p hp q hq hpq
    obtain ⟨a, ha, rfl⟩ := of_mem_setById hp
    obtain ⟨b, hb, rfl⟩ := of_mem_setById hq
    have hab : a.submissionId = b.submissionId := by
      by_cases h1 : a.id = i <;> by_cases h2 : b.id = i <;>
        simpa [h1, h2] using hpq
    have hab2 := hs.payOnce a ha b hb hab
    subst hab2
    rfl
  · intro x hx hxa u hu huid hw
    exact exists_mem_setById (hs.approvedPaid x hx hxa u hu huid hw)
      fun a hPa => hPa

/-- Earnings updates keep the store well-formed. -/
theorem good_updateUserEarnings {s : MemStorage} (hs : GoodState s)
    {i : ℕ} {amount : ℚ} :
    GoodState (s.updateUserEarnings i amount) := by
  refine ⟨?_, hs.tasksNodup, hs.subsNodup, hs.paysNodup, ?_,
    hs.tasksLt, hs.subsLt, hs.paysLt, hs.subWorkerLt, hs.taskMaxPos,
    hs.taskCap, hs.taskCapStatus, hs.subTask, hs.paySub, hs.payOnce, ?_⟩
  · exact nodup_setById hs.usersNodup fun a => rfl
  · exact forall_mem_setById hs.usersLt fun a ha => ha
  · intro x hx hxa
    exact forall_mem_setById (hs.approvedPaid x hx hxa) fun a h => h

/-- Task status updates to `completed` keep the store well-formed. -/
theorem good_updateTaskStatus_completed {s : MemStorage} (hs : GoodState s)
    {i : ℕ} : GoodState (s.updateTaskStatus i TaskStatus.completed) := by
  refine ⟨hs.usersNodup, ?_, hs.subsNodup, hs.paysNodup, hs.usersLt,
    ?_, hs.subsLt, hs.paysLt, hs.subWorkerLt, ?_, ?_, ?_, ?_,
    hs.paySub, hs.payOnce, ?_⟩
  · exact nodup_setById hs.tasksNodup fun a => rfl
  · exact forall_mem_setById hs.tasksLt fun a ha => ha
  · exact forall_mem_setById hs.taskMaxPos fun a ha => ha
  · exact forall_mem_setById hs.taskCap fun a ha => ha
  · exact forall_mem_setById hs.taskCapStatus
      fun a _ _ => Or.inr (Or.inl rfl)
  · intro x hx
    exact mem_map_id_setById (hs.subTask x hx) fun a => rfl
  · intro x hx hxa u hu huid hw
    obtain ⟨p, hp, hps, hamt⟩ := hs.approvedPaid x hx hxa u hu huid hw
    exact ⟨p, hp, hps, forall_mem_setById hamt fun a h => h⟩

/-- Budget accrual keeps the store well-formed. -/
theorem good_addToPaidOut {s : MemStorage} (hs : GoodState s) {amount : ℚ} :
    GoodState (s.addToPaidOut amount) := by
  refine good_of_parts hs ?_ ?_ ?_ ?_ ?_ <;>
    unfold MemStorage.addToPaidOut <;> cases s.budgetData <;> simp

/-- Budget balance writes keep the store well-formed. -/
theorem good_updateBudget {s : MemStorage} (hs : GoodState s) {bal : ℚ}
    {wa : Option String} : GoodState (s.updateBudget bal wa) := by
  refine good_of_parts hs ?_ ?_ ?_ ?_ ?_ <;>
    unfold MemStorage.updateBudget <;> cases s.budgetData <;> simp

/-- Transfer of a pointwise property across an update, with membership
and the updated id available when justifying the updated element. -/
theorem forall_mem_setById_id {α : Type} {idOf : α → ℕ} {l : List α}
    {i : ℕ} {f : α → α} {P : α → Prop} (hP : ∀ a ∈ l, P a)
    (hf : ∀ a ∈ l, idOf a = i → P a → P (f a)) :
    ∀ x ∈ setById idOf l i f, P x := by
  intro x hx
  obtain ⟨a, ha, rfl⟩ := of_mem_setById hx
  by_cases h : idOf a = i
  · rw [if_pos h]; exact hf a ha h (hP a ha)
  · rw [if_neg h]; exact hP a ha

/-- Worker creation keeps the store well-formed. -/
theorem good_createUser {s : MemStorage} (hs : GoodState s)
    {username password : String} {wa : Option String} :
    GoodState (s.createUser username password wa).2 := by
  refine ⟨?_, hs.tasksNodup, hs.subsNodup, hs.paysNodup, ?_,
    fun t ht => Nat.lt_succ_of_lt (hs.tasksLt t ht),
    fun x hx => Nat.lt_succ_of_lt (hs.subsLt x hx),
    fun p hp => Nat.lt_succ_of_lt (hs.paysLt p hp),
    fun x hx => Nat.lt_succ_of_lt (hs.subWorkerLt x hx),
    hs.taskMaxPos, hs.taskCap, hs.taskCapStatus, hs.subTask, hs.paySub,
    hs.payOnce, ?_⟩
  · rw [show (s.createUser username password wa).2.users.map User.id =
      s.users.map User.id ++ [s.nextId] by
        simp [MemStorage.createUser]]
    refine nodup_snoc_ids hs.usersNodup ?_
    intro y hy
    rcases List.mem_map.mp hy with ⟨u, hu, rfl⟩
    exact hs.usersLt u hu
  · intro u hu
    rcases List.mem_append.mp hu with hu | hu
    · exact Nat.lt_succ_of_lt (hs.usersLt u hu)
    · rcases List.mem_singleton.mp hu with rfl
      exact Nat.lt_succ_self _
  · intro x hx hxa u hu huid hw
    rcases List.mem_append.mp hu with hu | hu
    · exact hs.approvedPaid x hx hxa u hu huid hw
    · rcases List.mem_singleton.mp hu with rfl
      have huid2 : s.nextId = x.workerId := huid
      have h2 := hs.subWorkerLt x hx
      rw [← huid2] at h2
      exact absurd h2 (lt_irrefl _)

/-- Task creation with a positive cap keeps the store well-formed. -/
theorem good_createTask {s : MemStorage} (hs : GoodState s)
    {title description taskType : String} {reward : ℚ} {crit : String}
    {maxSubs : ℕ} {deadline : Option ℕ} (hmax : 1 ≤ maxSubs) :
    GoodState (s.createTask title description taskType reward crit maxSubs
      deadline).2 := by
  refine ⟨hs.usersNodup, ?_, hs.subsNodup, hs.paysNodup,
    fun u hu => Nat.lt_succ_of_lt (hs.usersLt u hu), ?_,
    fun x hx => Nat.lt_succ_of_lt (hs.subsLt x hx),
    fun p hp => Nat.lt_succ_of_lt (hs.paysLt p hp),
    fun x hx => Nat.lt_succ_of_lt (hs.subWorkerLt x hx),
    ?_, ?_, ?_, ?_, hs.paySub, hs.payOnce, ?_⟩
  · rw [show (s.createTask title description taskType reward crit maxSubs
        deadline).2.tasks.map Task.id = s.tasks.map Task.id ++ [s.nextId] by
        simp [MemStorage.createTask]]
    refine nodup_snoc_ids hs.tasksNodup ?_
    intro y hy
    rcases List.mem_map.mp hy with ⟨t, ht, rfl⟩
    exact hs.tasksLt t ht
  · intro t ht
    rcases List.mem_append.mp ht with ht | ht
    · exact Nat.lt_succ_of_lt (hs.tasksLt t ht)
    · rcases List.mem_singleton.mp ht with rfl
      exact Nat.lt_succ_self _
  · intro t ht
    rcases List.mem_append.mp ht with ht | ht
    · exact hs.taskMaxPos t ht
    · rcases List.mem_singleton.mp ht with rfl
      exact hmax
  · intro t ht
    rcases List.mem_append.mp ht with ht | ht
    · exact hs.taskCap t ht
    · rcases List.mem_singleton.mp ht with rfl
      exact Nat.zero_le _
  · intro t ht hcap
    rcases List.mem_append.mp ht with ht | ht
    · exact hs.taskCapStatus t ht hcap
    · rcases List.mem_singleton.mp ht with rfl
      have hcap2 : maxSubs ≤ 0 := hcap
      omega
  · intro x hx
    rcases List.mem_map.mp (hs.subTask x hx) with ⟨t, ht, hid⟩
    exact List.mem_map.mpr ⟨t, List.mem_append_left _ ht, hid⟩
  · intro x hx hxa u hu huid hw
    obtain ⟨p, hp, hps, hamt⟩ := hs.approvedPaid x hx hxa u hu huid hw
    refine ⟨p, hp, hps, ?_⟩
    intro t ht hid
    rcases List.mem_append.mp ht with ht | ht
    · exact hamt t ht hid
    · rcases List.mem_singleton.mp ht with rfl
      have hid2 : s.nextId = x.taskId := hid
      rcases List.mem_map.mp (hs.subTask x hx) with ⟨t0, ht0, hid0⟩
      have := hs.tasksLt t0 ht0
      rw [hid0, ← hid2] at this
      exact absurd this (lt_irrefl _)

/-- Claiming a still-open task keeps the store well-formed. -/
theorem good_assignTask {s : MemStorage} (hs : GoodState s)
    {taskId workerId : ℕ} {task : Task}
    (htask : s.getTask taskId = some task)
    (hopen : task.status = TaskStatus.open_) :
    GoodState (s.assignTask taskId workerId) := by
  refine ⟨hs.usersNodup, ?_, hs.subsNodup, hs.paysNodup, hs.usersLt,
    ?_, hs.subsLt, hs.paysLt, hs.subWorkerLt, ?_, ?_, ?_, ?_,
    hs.paySub, hs.payOnce, ?_⟩
  · exact nodup_setById hs.tasksNodup fun a => rfl
  · exact forall_mem_setById hs.tasksLt fun a ha => ha
  · exact forall_mem_setById hs.taskMaxPos fun a ha => ha
  · exact forall_mem_setById hs.taskCap fun a ha => ha
  · refine forall_mem_setById_id hs.taskCapStatus ?_
    intro a ha hid hPa hcap
    have ha2 : a = task := mem_id_unique hs.tasksNodup ha (getTask_mem htask).1
      (by rw [hid, (getTask_mem htask).2])
    have hcap2 : a.maxSubmissions ≤ a.currentSubmissions := hcap
    rcases hPa hcap2 with h | h | h <;> rw [ha2, hopen] at h <;> cases h
  · intro x hx
    exact mem_map_id_setById (hs.subTask x hx) fun a => rfl
  · intro x hx hxa u hu huid hw
    obtain ⟨p, hp, hps, hamt⟩ := hs.approvedPaid x hx hxa u hu huid hw
    exact ⟨p, hp, hps, forall_mem_setById hamt fun a h => h⟩

/-- Bumping a task's submissions counter keeps the store well-formed
when the cap had not been reached. -/
theorem good_incrementTaskSubmissions {s : MemStorage} (hs : GoodState s)
    {i : ℕ}
    (hroom : ∀ t ∈ s.tasks, t.id = i →
      t.currentSubmissions < t.maxSubmissions) :
    GoodState (s.incrementTaskSubmissions i) := by
  refine ⟨hs.usersNodup, ?_, hs.subsNodup, hs.paysNodup, hs.usersLt,
    ?_, hs.subsLt, hs.paysLt, hs.subWorkerLt, ?_, ?_, ?_, ?_,
    hs.paySub, hs.payOnce, ?_⟩
  · exact nodup_setById hs.tasksNodup fun a => rfl
  · exact forall_mem_setById hs.tasksLt fun a ha => ha
  · exact forall_mem_setById hs.taskMaxPos fun a ha => ha
  · refine forall_mem_setById_id hs.taskCap ?_
    intro a ha hid hPa
    exact hroom a ha hid
  · refine forall_mem_setById_id hs.taskCapStatus ?_
    intro a ha hid hPa hcap
    have hcap2 : a.maxSubmissions ≤ a.currentSubmissions + 1 := hcap
    have hne : a.maxSubmissions ≠ 0 := by
      have := hs.taskMaxPos a ha
      omega
    left
    show (if a.maxSubmissions ≠ 0 ∧ a.maxSubmissions ≤ a.currentSubmissions + 1
      then TaskStatus.pending_verification else a.status) =
      TaskStatus.pending_verification
    rw [if_pos ⟨hne, hcap2⟩]
  · intro x hx
    exact mem_map_id_setById (hs.subTask x hx) fun a => rfl
  · intro x hx hxa u hu huid hw
    obtain ⟨p, hp, hps, hamt⟩ := hs.approvedPaid x hx hxa u hu huid hw
    exact ⟨p, hp, hps, forall_mem_setById hamt fun a h => h⟩

/-- Submission creation keeps the store well-formed when the task id
exists and the worker id is an already-issued one. -/
theorem good_createSubmission {s : MemStorage} (hs : GoodState s)
    {taskId workerId : ℕ} {proofType proofData : String}
    {proofDescription : Option String}
    (htask : taskId ∈ s.tasks.map Task.id) (hworker : workerId < s.nextId) :
    GoodState (s.createSubmission taskId workerId proofType proofData
      proofDescription).2 := by
  refine ⟨hs.usersNodup, hs.tasksNodup, ?_, hs.paysNodup,
    fun u hu => Nat.lt_succ_of_lt (hs.usersLt u hu),
    fun t ht => Nat.lt_succ_of_lt (hs.tasksLt t ht), ?_,
    fun p hp => Nat.lt_succ_of_lt (hs.paysLt p hp), ?_,
    hs.taskMaxPos, hs.taskCap, hs.taskCapStatus, ?_, ?_, hs.payOnce, ?_⟩
  · rw [show (s.createSubmission taskId workerId proofType proofData
        proofDescription).2.submissions.map Submission.id =
        s.submissions.map Submission.id ++ [s.nextId] by
        simp [MemStorage.createSubmission]]
    refine nodup_snoc_ids hs.subsNodup ?_
    intro y hy
    rcases List.mem_map.mp hy with ⟨x, hx, rfl⟩
    exact hs.subsLt x hx
  · intro x hx
    rcases List.mem_append.mp hx with hx | hx
    · exact Nat.lt_succ_of_lt (hs.subsLt x hx)
    · rcases List.mem_singleton.mp hx with rfl
      exact Nat.lt_succ_self _
  · intro x hx
    rcases List.mem_append.mp hx with hx | hx
    · exact Nat.lt_succ_of_lt (hs.subWorkerLt x hx)
    · rcases List.mem_singleton.mp hx with rfl
      exact Nat.lt_succ_of_lt hworker
  · intro x hx
    rcases List.mem_append.mp hx with hx | hx
    · exact hs.subTask x hx
    · rcases List.mem_singleton.mp hx with rfl
      exact htask
  · intro p hp
    obtain ⟨x, hx, hxid, hxa⟩ := hs.paySub p hp
    exact ⟨x, List.mem_append_left _ hx, hxid, hxa⟩
  · intro x hx hxa u hu huid hw
    rcases List.mem_append.mp hx with hx | hx
    · exact hs.approvedPaid x hx hxa u hu huid hw
    · rcases List.mem_singleton.mp hx with rfl
      cases hxa

/-- Recording a rejection keeps the store well-formed: the rejected
submission was pending, so no payment references it and nothing becomes
payable. -/
theorem good_updateSubmissionStatus_rejected {s : MemStorage}
    (hs : GoodState s) {submission : Submission}
    (hmem : submission ∈ s.submissions)
    (hpend : submission.status = SubmissionStatus.pending)
    {vr : Option String} {vs : Option ℚ} :
    GoodState (s.updateSubmissionStatus submission.id
      SubmissionStatus.rejected vr vs) := by
  refine ⟨hs.usersNodup, hs.tasksNodup, ?_, hs.paysNodup, hs.usersLt,
    hs.tasksLt, ?_, hs.paysLt, ?_, hs.taskMaxPos, hs.taskCap,
    hs.taskCapStatus, ?_, ?_, hs.payOnce, ?_⟩
  · exact nodup_setById hs.subsNodup fun a => rfl
  · exact forall_mem_setById hs.subsLt fun a ha => ha
  · exact forall_mem_setById hs.subWorkerLt fun a ha => ha
  · exact forall_mem_setById hs.subTask fun a ha => ha
  · intro p hp
    obtain ⟨x, hx, hxid, hxa⟩ := hs.paySub p hp
    have hne : x.id ≠ submission.id := by
      intro he
      have hxs : x = submission := mem_id_unique hs.subsNodup hx hmem he
      rw [hxs, hpend] at hxa
      cases hxa
    exact ⟨x, mem_setById_of_ne hx hne, hxid, hxa⟩
  · refine forall_mem_setById_id hs.approvedPaid ?_
    intro a ha hid hPa h
    exact nomatch h

/-- Recording an approval when no stored worker both matches the
submission and has a truthy payout address keeps the store well-formed:
the `approvedPaid` obligation for the newly approved submission is
vacuous. -/
theorem good_updateSubmissionStatus_approved_unpaid {s : MemStorage}
    (hs : GoodState s) {submission : Submission}
    (hmem : submission ∈ s.submissions)
    (hpend : submission.status = SubmissionStatus.pending)
    (hnopay : ∀ u ∈ s.users, u.id = submission.workerId →
      strTruthy u.walletAddress = false)
    {vr : Option String} {vs : Option ℚ} :
    GoodState (s.updateSubmissionStatus submission.id
      SubmissionStatus.approved vr vs) := by
  refine ⟨hs.usersNodup, hs.tasksNodup, ?_, hs.paysNodup, hs.usersLt,
    hs.tasksLt, ?_, hs.paysLt, ?_, hs.taskMaxPos, hs.taskCap,
    hs.taskCapStatus, ?_, ?_, hs.payOnce, ?_⟩
  · exact nodup_setById hs.subsNodup fun a => rfl
  · exact forall_mem_setById hs.subsLt fun a ha => ha
  · exact forall_mem_setById hs.subWorkerLt fun a ha => ha
  · exact forall_mem_setById hs.subTask fun a ha => ha
  · intro p hp
    obtain ⟨x, hx, hxid, hxa⟩ := hs.paySub p hp
    have hne : x.id ≠ submission.id := by
      intro he
      have hxs : x = submission := mem_id_unique hs.subsNodup hx hmem he
      rw [hxs, hpend] at hxa
      cases hxa
    exact ⟨x, mem_setById_of_ne hx hne, hxid, hxa⟩
  · refine forall_mem_setById_id hs.approvedPaid ?_
    intro a ha hid hPa _ u hu huid hw
    have has : a = submission := mem_id_unique hs.subsNodup ha hmem hid
    have huid2 : u.id = submission.workerId := by rw [← has]; exact huid
    rw [hnopay u hu huid2] at hw
    cases hw

/-- Submission status updates do not change the stored workers. -/
theorem getUser_updateSubmissionStatus (s : MemStorage) (i : ℕ)
    (st : SubmissionStatus) (vr : Option String) (vs : Option ℚ) (j : ℕ) :
    (s.updateSubmissionStatus i st vr vs).getUser j = s.getUser j := rfl

/-- Recording an approval together with the payment it mandates keeps
the store well-formed: the fresh payment discharges the `approvedPaid`
obligation of the newly approved submission and collides with no
existing one. -/
theorem good_verdict_paid {s : MemStorage} (hs : GoodState s)
    {submission : Submission} {task : Task} {addr : String}
    (hmem : submission ∈ s.submissions)
    (hpend : submission.status = SubmissionStatus.pending)
    (htaskmem : task ∈ s.tasks) (htid : task.id = submission.taskId)
    {vr : Option String} {vs : Option ℚ} :
    GoodState ((s.updateSubmissionStatus submission.id
      SubmissionStatus.approved vr vs).createPayment submission.id task.id
      submission.workerId addr task.rewardSol).2 := by
  have hnoref : ∀ p ∈ s.payments, p.submissionId ≠ submission.id := by
    intro p hp he
    obtain ⟨x, hx, hxid, hxa⟩ := hs.paySub p hp
    rw [he] at hxid
    have hxs : x = submission := mem_id_unique hs.subsNodup hx hmem hxid
    rw [hxs, hpend] at hxa
    cases hxa
  refine ⟨hs.usersNodup, hs.tasksNodup, ?_, ?_,
    fun u hu => Nat.lt_succ_of_lt (hs.usersLt u hu),
    fun t ht => Nat.lt_succ_of_lt (hs.tasksLt t ht), ?_, ?_, ?_,
    hs.taskMaxPos, hs.taskCap, hs.taskCapStatus, ?_, ?_, ?_, ?_⟩
  · exact nodup_setById hs.subsNodup fun a => rfl
  · rw [show ((s.updateSubmissionStatus submission.id
        SubmissionStatus.approved vr vs).createPayment submission.id task.id
        submission.workerId addr task.rewardSol).2.payments.map Payment.id =
        s.payments.map Payment.id ++ [s.nextId] by
        simp [MemStorage.createPayment, MemStorage.updateSubmissionStatus]]
    refine nodup_snoc_ids hs.paysNodup ?_
    intro y hy
    rcases List.mem_map.mp hy with ⟨p, hp, rfl⟩
    exact hs.paysLt p hp
  · exact forall_mem_setById
      (fun x hx => Nat.lt_succ_of_lt (hs.subsLt x hx)) fun a ha => ha
  · intro p hp
    rcases List.mem_append.mp hp with hp | hp
    · exact Nat.lt_succ_of_lt (hs.paysLt p hp)
    · rcases List.mem_singleton.mp hp with rfl
      exact Nat.lt_succ_self _
  · exact forall_mem_setById
      (fun x hx => Nat.lt_succ_of_lt (hs.subWorkerLt x hx)) fun a ha => ha
  · exact forall_mem_setById hs.subTask fun a ha => ha
  · intro p hp
    rcases List.mem_append.mp hp with hp | hp
    · obtain ⟨x, hx, hxid, hxa⟩ := hs.paySub p hp
      have hne : x.id ≠ submission.id := by
        intro he
        have hxs : x = submission := mem_id_unique hs.subsNodup hx hmem he
        rw [hxs, hpend] at hxa
        cases hxa
      exact ⟨x, mem_setById_of_ne hx hne, hxid, hxa⟩
    · rcases List.mem_singleton.mp hp with rfl
      exact ⟨_, mem_setById_self hmem rfl, rfl, rfl⟩
  · intro p hp q hq hpq
    rcases List.mem_append.mp hp with hp | hp <;>
      rcases List.mem_append.mp hq with hq | hq
    · exact hs.payOnce p hp q hq hpq
    · rcases List.mem_singleton.mp hq with rfl
      exact absurd hpq (hnoref p hp)
    · rcases List.mem_singleton.mp hp with rfl
      exact absurd hpq.symm (hnoref q hq)
    · rcases List.mem_singleton.mp hp with rfl
      rcases List.mem_singleton.mp hq with rfl
      rfl
  · refine forall_mem_setById_id ?_ ?_
    · intro a ha hxa u hu huid hw
      obtain ⟨p, hp, hps, hamt⟩ := hs.approvedPaid a ha hxa u hu huid hw
      exact ⟨p, List.mem_append_left _ hp, hps, hamt⟩
    · intro a ha hid _ _ u hu huid hw
      have has : a = submission := mem_id_unique hs.subsNodup ha hmem hid
      subst has
      refine ⟨_, List.mem_append_right _ (List.mem_singleton_self _), rfl, ?_⟩
      intro t ht htid2
      have hts : t = task := mem_id_unique hs.tasksNodup ht htaskmem
        (by rw [htid]; exact htid2)
      rw [hts]

/-- The shared verdict-recording block keeps the store well-formed. -/
theorem good_recordVerdict {s : MemStorage} (hs : GoodState s)
    {submission : Submission} {task : Task} {result : VerificationResult}
    (hmem : submission ∈ s.submissions)
    (hpend : submission.status = SubmissionStatus.pending)
    (htaskmem : task ∈ s.tasks) (htid : task.id = submission.taskId) :
    GoodState (recordVerdict s submission task result).1 := by
  unfold recordVerdict
  by_cases happr : result.approved = true
  · rw [if_pos happr]
    dsimp only
    apply good_updateTaskStatus_completed
    rw [getUser_updateSubmissionStatus]
    rcases hw : s.getUser submission.workerId with _ | worker
    · dsimp only
      refine good_updateSubmissionStatus_approved_unpaid hs hmem hpend ?_
      intro u hu huid
      exfalso
      unfold MemStorage.getUser at hw
      have h2 := List.find?_eq_none.mp hw u hu
      simp [huid] at h2
    · dsimp only
      rcases hwa : worker.walletAddress with _ | addr
      · dsimp only
        refine good_updateSubmissionStatus_approved_unpaid hs hmem hpend ?_
        intro u hu huid
        have hwm := getUser_mem hw
        have huw : u = worker := mem_id_unique hs.usersNodup hu hwm.1
          (by rw [huid, hwm.2])
        rw [huw, hwa]
        rfl
      · dsimp only
        by_cases ha : addr = ""
        · rw [if_neg (by simp [ha])]
          refine good_updateSubmissionStatus_approved_unpaid hs hmem hpend ?_
          intro u hu huid
          have hwm := getUser_mem hw
          have huw : u = worker := mem_id_unique hs.usersNodup hu hwm.1
            (by rw [huid, hwm.2])
          rw [huw, hwa, ha]
          rfl
        · rw [if_pos ha]
          exact good_verdict_paid hs hmem hpend htaskmem htid
  · rw [if_neg happr]
    exact good_updateSubmissionStatus_rejected hs hmem hpend

/-- The verdict-recording block never touches the budget record. -/
theorem budget_recordVerdict (s : MemStorage) (x : Submission) (t : Task)
    (r : VerificationResult) :
    (recordVerdict s x t r).1.budgetData = s.budgetData := by
  unfold recordVerdict
  split
  · dsimp only
    split
    · split
      · split <;> rfl
      · rfl
    · rfl
  · rfl

/-- The verdict-recording block does not change the completed-payment
sum: the payment it may create starts out pending. -/
theorem completedSum_recordVerdict (s : MemStorage) (x : Submission)
    (t : Task) (r : VerificationResult) :
    completedSum (recordVerdict s x t r).1 = completedSum s := by
  unfold recordVerdict
  split
  · dsimp only
    split
    · split
      · split
        · simp [completedSum, MemStorage.createPayment,
            MemStorage.updateSubmissionStatus, MemStorage.updateTaskStatus]
        · rfl
      · rfl
    · rfl
  · rfl

/-- The verdict-recording block leaves every other submission in
place. -/
theorem recordVerdict_mem_submissions {s : MemStorage} {x y : Submission}
    {t : Task} {r : VerificationResult} (hy : y ∈ s.submissions)
    (hne : y.id ≠ x.id) : y ∈ (recordVerdict s x t r).1.submissions := by
  unfold recordVerdict
  split
  · dsimp only
    split
    · split
      · split <;> exact mem_setById_of_ne hy hne
      · exact mem_setById_of_ne hy hne
    · exact mem_setById_of_ne hy hne
  · exact mem_setById_of_ne hy hne

/-- The verdict-recording block preserves the stored task ids. -/
theorem recordVerdict_tasks_ids (s : MemStorage) (x : Submission) (t : Task)
    (r : VerificationResult) :
    (recordVerdict s x t r).1.tasks.map Task.id = s.tasks.map Task.id := by
  unfold recordVerdict
  split
  · dsimp only
    split
    · split
      · split <;> exact setById_map_id fun a => rfl
      · exact setById_map_id fun a => rfl
    · exact setById_map_id fun a => rfl
  · rfl

/-- Unfolding one batch-verification iteration when the submission's
task is missing. -/
theorem verifyBatchItem_eq_none {ext : Ext} {s : MemStorage}
    {sub : Submission} (hT : s.getTask sub.taskId = none) :
    verifyBatchItem ext s sub = (none, s, []) := by
  unfold verifyBatchItem
  rw [hT]

/-- Unfolding one batch-verification iteration when the submission's
task is found. -/
theorem verifyBatchItem_eq_some {ext : Ext} {s : MemStorage}
    {sub : Submission} {task : Task} (hT : s.getTask sub.taskId = some task) :
    verifyBatchItem ext s sub =
      (if jsStartsWith (judgeResult ext task sub).reasoning
          "Verification failed:" then
        (some (VerifyEntry.err sub.id "Verification service error"), s,
          [Ev.callJudge sub.id])
      else
        (some (VerifyEntry.verdict sub.id (judgeResult ext task sub).approved
            (judgeResult ext task sub).score),
          (recordVerdict s sub task (judgeResult ext task sub)).1,
          Ev.callJudge sub.id ::
            (recordVerdict s sub task (judgeResult ext task sub)).2)) := by
  unfold verifyBatchItem
  rw [hT]

/-- One batch-verification iteration keeps the store well-formed. -/
theorem good_verifyBatchItem {s : MemStorage} (hs : GoodState s) {ext : Ext}
    {sub : Submission} (hmem : sub ∈ s.submissions)
    (hpend : sub.status = SubmissionStatus.pending) :
    GoodState (verifyBatchItem ext s sub).2.1 := by
  cases hT : s.getTask sub.taskId with
  | none => rw [verifyBatchItem_eq_none hT]; exact hs
  | some task =>
    rw [verifyBatchItem_eq_some hT]
    by_cases hsw : (jsStartsWith (judgeResult ext task sub).reasoning
      "Verification failed:") = true
    · rw [if_pos hsw]
      exact hs
    · rw [if_neg hsw]
      exact good_recordVerdict hs hmem hpend (getTask_mem hT).1
        (getTask_mem hT).2

/-- One batch-verification iteration preserves budget consistency. -/
theorem budgetOK_verifyBatchItem {s : MemStorage} {ext : Ext}
    {sub : Submission} (hB : BudgetOK s) :
    BudgetOK (verifyBatchItem ext s sub).2.1 := by
  cases hT : s.getTask sub.taskId with
  | none => rw [verifyBatchItem_eq_none hT]; exact hB
  | some task =>
    rw [verifyBatchItem_eq_some hT]
    by_cases hsw : (jsStartsWith (judgeResult ext task sub).reasoning
      "Verification failed:") = true
    · rw [if_pos hsw]
      exact hB
    · rw [if_neg hsw]
      obtain ⟨b, hb, he⟩ := hB
      refine ⟨b, ?_, ?_⟩
      · rw [show ((some (VerifyEntry.verdict sub.id
            (judgeResult ext task sub).approved
            (judgeResult ext task sub).score),
            (recordVerdict s sub task (judgeResult ext task sub)).1,
            Ev.callJudge sub.id ::
              (recordVerdict s sub task (judgeResult ext task sub)).2) :
            Option VerifyEntry × MemStorage × List Ev).2.1.budgetData =
            (recordVerdict s sub task (judgeResult ext task sub)).1.budgetData
          from rfl, budget_recordVerdict]
        exact hb
      · rw [show ((some (VerifyEntry.verdict sub.id
            (judgeResult ext task sub).approved
            (judgeResult ext task sub).score),
            (recordVerdict s sub task (judgeResult ext task sub)).1,
            Ev.callJudge sub.id ::
              (recordVerdict s sub task (judgeResult ext task sub)).2) :
            Option VerifyEntry × MemStorage × List Ev).2.1 =
            (recordVerdict s sub task (judgeResult ext task sub)).1
          from rfl, completedSum_recordVerdict]
        exact he

/-- One batch-verification iteration leaves every other submission in
place. -/
theorem verifyBatchItem_mem_submissions {s : MemStorage} {ext : Ext}
    {sub y : Submission} (hy : y ∈ s.submissions) (hne : y.id ≠ sub.id) :
    y ∈ (verifyBatchItem ext s sub).2.1.submissions := by
  cases hT : s.getTask sub.taskId with
  | none => rw [verifyBatchItem_eq_none hT]; exact hy
  | some task =>
    rw [verifyBatchItem_eq_some hT]
    by_cases hsw : (jsStartsWith (judgeResult ext task sub).reasoning
      "Verification failed:") = true
    · rw [if_pos hsw]
      exact hy
    · rw [if_neg hsw]
      exact recordVerdict_mem_submissions hy hne

/-- One batch-verification iteration preserves the stored task ids. -/
theorem verifyBatchItem_tasks_ids (ext : Ext) (s : MemStorage)
    (sub : Submission) :
    (verifyBatchItem ext s sub).2.1.tasks.map Task.id =
      s.tasks.map Task.id := by
  cases hT : s.getTask sub.taskId with
  | none => rw [verifyBatchItem_eq_none hT]
  | some task =>
    rw [verifyBatchItem_eq_some hT]
    by_cases hsw : (jsStartsWith (judgeResult ext task sub).reasoning
      "Verification failed:") = true
    · rw [if_pos hsw]
    · rw [if_neg hsw]
      exact recordVerdict_tasks_ids _ _ _ _

/-- One batch-verification iteration yields an entry carrying the
submission's id whenever the submission's task exists. -/
theorem verifyBatchItem_entry {s : MemStorage} {ext : Ext}
    {sub : Submission} (htask : sub.taskId ∈ s.tasks.map Task.id) :
    ∃ e, (verifyBatchItem ext s sub).1 = some e ∧
      e.submissionId = sub.id := by
  obtain ⟨t, hT⟩ := getTask_isSome_of_mem htask
  rw [verifyBatchItem_eq_some hT]
  by_cases hsw : (jsStartsWith (judgeResult ext t sub).reasoning
    "Verification failed:") = true
  · rw [if_pos hsw]
    exact ⟨_, rfl, rfl⟩
  · rw [if_neg hsw]
    exact ⟨_, rfl, rfl⟩

/-- The batch-verification loop keeps the store well-formed and
preserves budget consistency, for a work list of distinct pending
submissions drawn from the store. -/
theorem verifyBatchGo_good (ext : Ext) :
    ∀ (rest : List Submission) (s : MemStorage), GoodState s →
    (∀ y ∈ rest, y ∈ s.submissions ∧ y.status = SubmissionStatus.pending) →
    (rest.map Submission.id).Nodup →
    GoodState (verifyBatchGo ext rest s).2.1 ∧
      (BudgetOK s → BudgetOK (verifyBatchGo ext rest s).2.1) := by
  intro rest
  induction rest with
  | nil => exact fun s hs _ _ => ⟨hs, fun h => h⟩
  | cons sub rest ih =>
    intro s hs hrest hnd
    have hsub := hrest sub (by simp)
    have hgood1 : GoodState (verifyBatchItem ext s sub).2.1 :=
      good_verifyBatchItem hs hsub.1 hsub.2
    have hothers : ∀ y ∈ rest,
        y ∈ (verifyBatchItem ext s sub).2.1.submissions ∧
        y.status = SubmissionStatus.pending := by
      intro y hy
      have hyy := hrest y (by simp [hy])
      have hne : y.id ≠ sub.id := by
        intro he
        have hmm : y.id ∈ rest.map Submission.id := List.mem_map_of_mem _ hy
        rw [he] at hmm
        exact (List.nodup_cons.mp hnd).1 hmm
      exact ⟨verifyBatchItem_mem_submissions hyy.1 hne, hyy.2⟩
    have ihh := ih (verifyBatchItem ext s sub).2.1 hgood1 hothers
      (List.nodup_cons.mp hnd).2
    exact ⟨ihh.1, fun hB => ihh.2 (budgetOK_verifyBatchItem hB)⟩

/-- The batch-verification loop yields exactly one entry per work-list
submission, in order, when each submission's task exists. -/
theorem verifyBatchGo_ids (ext : Ext) :
    ∀ (rest : List Submission) (s : MemStorage),
    (∀ y ∈ rest, y.taskId ∈ s.tasks.map Task.id) →
    (verifyBatchGo ext rest s).1.map VerifyEntry.submissionId =
      rest.map Submission.id := by
  intro rest
  induction rest with
  | nil => exact fun s _ => rfl
  | cons sub rest ih =>
    intro s hrest
    obtain ⟨e, he, heid⟩ := verifyBatchItem_entry (hrest sub (by simp))
    have ihh := ih (verifyBatchItem ext s sub).2.1 (by
      intro y hy
      rw [verifyBatchItem_tasks_ids]
      exact hrest y (by simp [hy]))
    show (verifyBatchGo ext (sub :: rest) s).1.map VerifyEntry.submissionId = _
    simp only [verifyBatchGo]
    rw [he]
    simp only [List.map_cons]
    rw [heid, ihh]

/-- Payment status updates do not touch the budget record. -/
theorem budget_updatePaymentStatus (s : MemStorage) (i : ℕ)
    (st : PaymentStatus) (sig err : Option String) :
    (s.updatePaymentStatus i st sig err).budgetData = s.budgetData := rfl

/-- Earnings updates do not touch the budget record. -/
theorem budget_updateUserEarnings (s : MemStorage) (i : ℕ) (amt : ℚ) :
    (s.updateUserEarnings i amt).budgetData = s.budgetData := rfl

/-- Earnings updates do not touch the payments. -/
theorem payments_updateUserEarnings (s : MemStorage) (i : ℕ) (amt : ℚ) :
    (s.updateUserEarnings i amt).payments = s.payments := rfl

/-- Budget accrual does not touch the payments. -/
theorem payments_addToPaidOut (s : MemStorage) (amt : ℚ) :
    (s.addToPaidOut amt).payments = s.payments := by
  unfold MemStorage.addToPaidOut
  cases s.budgetData <;> rfl

/-- Budget accrual on an existing record adds to the paid-out total. -/
theorem budget_addToPaidOut_some {s : MemStorage} {b : Budget} {amt : ℚ}
    (hb : s.budgetData = some b) :
    (s.addToPaidOut amt).budgetData =
      some { b with totalPaidOut := b.totalPaidOut + amt,
                    lastUpdated := s.now } := by
  unfold MemStorage.addToPaidOut
  rw [hb]

/-- Effect of one payment status update on the completed-payment sum,
for a store with distinct payment ids. -/
theorem completedSum_updatePaymentStatus {s : MemStorage} {p : Payment}
    {i : ℕ} (hnd : (s.payments.map Payment.id).Nodup) (hp : p ∈ s.payments)
    (hid : p.id = i) (st : PaymentStatus) (sig err : Option String) :
    completedSum (s.updatePaymentStatus i st sig err) =
      completedSum s -
        (if p.status = PaymentStatus.completed then p.amountSol else 0) +
        (if st = PaymentStatus.completed then p.amountSol else 0) := by
  unfold completedSum
  rw [show (s.updatePaymentStatus i st sig err).payments =
    setById Payment.id s.payments i _ from rfl]
  rw [sum_map_setById hnd hp hid]

/-- The updated image of a stored payment is in the updated store, with
the new status and the unchanged id and amount. -/
theorem updated_payment_mem {s : MemStorage} {p : Payment}
    {st : PaymentStatus} {sig err : Option String} (hp : p ∈ s.payments) :
    ∃ q ∈ (s.updatePaymentStatus p.id st sig err).payments,
      q.id = p.id ∧ q.status = st ∧ q.amountSol = p.amountSol := by
  unfold MemStorage.updatePaymentStatus
  exact ⟨_, mem_setById_self hp rfl, rfl, rfl, rfl⟩

/-- Budget accrual does not change the completed-payment sum. -/
theorem completedSum_addToPaidOut (s : MemStorage) (amt : ℚ) :
    completedSum (s.addToPaidOut amt) = completedSum s := by
  unfold completedSum
  rw [payments_addToPaidOut]

/-- Earnings updates do not change the completed-payment sum. -/
theorem completedSum_updateUserEarnings (s : MemStorage) (i : ℕ) (amt : ℚ) :
    completedSum (s.updateUserEarnings i amt) = completedSum s := rfl

/-- Effect of the `processing`-then-terminal status pair on the
completed-payment sum. -/
theorem completedSum_process_then {s : MemStorage} {p : Payment}
    (hnd : (s.payments.map Payment.id).Nodup) (hp : p ∈ s.payments)
    (hpend : p.status = PaymentStatus.pending) (st : PaymentStatus)
    (sig2 err2 : Option String) :
    completedSum ((s.updatePaymentStatus p.id PaymentStatus.processing none
      none).updatePaymentStatus p.id st sig2 err2) =
      completedSum s +
        (if st = PaymentStatus.completed then p.amountSol else 0) := by
  have hnd2 : ((s.updatePaymentStatus p.id PaymentStatus.processing none
      none).payments.map Payment.id).Nodup := nodup_setById hnd fun a => rfl
  obtain ⟨q, hq, hqid, hqst, hqamt⟩ :=
    @updated_payment_mem s p PaymentStatus.processing none none hp
  rw [completedSum_updatePaymentStatus hnd2 hq hqid st sig2 err2,
    completedSum_updatePaymentStatus hnd hp rfl]
  simp [hpend, hqst, hqamt]

/-- One batch-settlement iteration keeps the store well-formed,
preserves budget consistency, and leaves every other payment in
place. -/
theorem processAllItem_good_budget {ext : Ext} {s : MemStorage}
    {p : Payment} (hs : GoodState s) (hp : p ∈ s.payments)
    (hpend : p.status = PaymentStatus.pending) :
    GoodState (processAllItem ext s p).2.1 ∧
      (BudgetOK s → BudgetOK (processAllItem ext s p).2.1) ∧
      (∀ y ∈ s.payments, y.id ≠ p.id →
        y ∈ (processAllItem ext s p).2.1.payments) := by
  have hfail1 : ∀ (e : Option String),
      GoodState (s.updatePaymentStatus p.id PaymentStatus.failed none e) ∧
      (BudgetOK s →
        BudgetOK (s.updatePaymentStatus p.id PaymentStatus.failed none e)) ∧
      (∀ y ∈ s.payments, y.id ≠ p.id →
        y ∈ (s.updatePaymentStatus p.id PaymentStatus.failed none
          e).payments) := by
    intro e
    refine ⟨good_updatePaymentStatus hs, ?_, ?_⟩
    · rintro ⟨b, hb, he⟩
      refine ⟨b, hb, ?_⟩
      rw [completedSum_updatePaymentStatus hs.paysNodup hp rfl]
      simp [hpend]
      exact he
    · intro y hy hyne
      exact mem_setById_of_ne hy hyne
  have hfail2 : ∀ (e : Option String),
      GoodState ((s.updatePaymentStatus p.id PaymentStatus.processing none
        none).updatePaymentStatus p.id PaymentStatus.failed none e) ∧
      (BudgetOK s →
        BudgetOK ((s.updatePaymentStatus p.id PaymentStatus.processing none
          none).updatePaymentStatus p.id PaymentStatus.failed none e)) ∧
      (∀ y ∈ s.payments, y.id ≠ p.id →
        y ∈ ((s.updatePaymentStatus p.id PaymentStatus.processing none
          none).updatePaymentStatus p.id PaymentStatus.failed none
          e).payments) := by
    intro e
    refine ⟨good_updatePaymentStatus (good_updatePaymentStatus hs), ?_, ?_⟩
    · rintro ⟨b, hb, he⟩
      refine ⟨b, hb, ?_⟩
      rw [completedSum_process_then hs.paysNodup hp hpend]
      simp
      exact he
    · intro y hy hyne
      exact mem_setById_of_ne (mem_setById_of_ne hy hyne) hyne
  unfold processAllItem
  by_cases h1 : p.amountSol ≤ 0 ∨ MAX_PAYMENT_AMOUNT_SOL < p.amountSol
  · rw [if_pos h1]
    exact hfail1 _
  · rw [if_neg h1]
    by_cases h2 : ext.validAddr p.walletAddress = true
    · rw [if_neg (not_not_intro h2)]
      rcases hres : ext.send p.walletAddress p.amountSol with ⟨succ, sig, err⟩
      cases succ with
      | false => exact hfail2 _
      | true =>
        cases sig with
        | none => exact hfail2 _
        | some sg =>
          dsimp only
          by_cases hsg : sg = ""
          · rw [if_pos hsg]
            exact hfail2 _
          · rw [if_neg hsg]
            refine ⟨good_addToPaidOut (good_updateUserEarnings
              (good_updatePaymentStatus (good_updatePaymentStatus hs))),
              ?_, ?_⟩
            · rintro ⟨b, hb, he⟩
              have hb4 : (((s.updatePaymentStatus p.id
                  PaymentStatus.processing none none).updatePaymentStatus p.id
                  PaymentStatus.completed (some sg) none).updateUserEarnings
                  p.workerId p.amountSol).budgetData = some b := hb
              refine ⟨_, budget_addToPaidOut_some hb4, ?_⟩
              show b.totalPaidOut + p.amountSol = _
              rw [completedSum_addToPaidOut, completedSum_updateUserEarnings,
                completedSum_process_then hs.paysNodup hp hpend, he]
              simp
            · intro y hy hyne
              rw [payments_addToPaidOut, payments_updateUserEarnings]
              exact mem_setById_of_ne (mem_setById_of_ne hy hyne) hyne
    · rw [if_pos h2]
      exact hfail1 _

/-- One batch-settlement iteration reports the payment's own id in its
entry. -/
theorem processAllItem_paymentId (ext : Ext) (s : MemStorage) (p : Payment) :
    (processAllItem ext s p).1.paymentId = p.id := by
  unfold processAllItem
  by_cases h1 : p.amountSol ≤ 0 ∨ MAX_PAYMENT_AMOUNT_SOL < p.amountSol
  · rw [if_pos h1]
  · rw [if_neg h1]
    by_cases h2 : ext.validAddr p.walletAddress = true
    · rw [if_neg (not_not_intro h2)]
      rcases hres : ext.send p.walletAddress p.amountSol with ⟨succ, sig, err⟩
      cases succ with
      | false => rfl
      | true =>
        cases sig with
        | none => rfl
        | some sg =>
          dsimp only
          by_cases hsg : sg = ""
          · rw [if_pos hsg]
          · rw [if_neg hsg]
    · rw [if_pos h2]

/-- The batch-settlement loop keeps the store well-formed and preserves
budget consistency, for a work list of distinct pending payments drawn
from the store. -/
theorem processAllGo_good (ext : Ext) :
    ∀ (rest : List Payment) (s : MemStorage), GoodState s →
    (∀ y ∈ rest, y ∈ s.payments ∧ y.status = PaymentStatus.pending) →
    (rest.map Payment.id).Nodup →
    GoodState (processAllGo ext rest s).2.1 ∧
      (BudgetOK s → BudgetOK (processAllGo ext rest s).2.1) := by
  intro rest
  induction rest with
  | nil => exact fun s hs _ _ => ⟨hs, fun h => h⟩
  | cons p rest ih =>
    intro s hs hrest hnd
    have hp := hrest p (by simp)
    have hitem := @processAllItem_good_budget ext s p hs hp.1 hp.2
    have hothers : ∀ y ∈ rest,
        y ∈ (processAllItem ext s p).2.1.payments ∧
        y.status = PaymentStatus.pending := by
      intro y hy
      have hyy := hrest y (by simp [hy])
      have hne : y.id ≠ p.id := by
        intro he
        have hmm : y.id ∈ rest.map Payment.id := List.mem_map_of_mem _ hy
        rw [he] at hmm
        exact (List.nodup_cons.mp hnd).1 hmm
      exact ⟨hitem.2.2 y hyy.1 hne, hyy.2⟩
    have ihh := ih (processAllItem ext s p).2.1 hitem.1 hothers
      (List.nodup_cons.mp hnd).2
    exact ⟨ihh.1, fun hB => ihh.2 (hitem.2.1 hB)⟩

/-- The batch-settlement loop yields exactly one entry per work-list
payment, in order. -/
theorem processAllGo_ids (ext : Ext) :
    ∀ (rest : List Payment) (s : MemStorage),
    (processAllGo ext rest s).1.map PayEntry.paymentId =
      rest.map Payment.id := by
  intro rest
  induction rest with
  | nil => exact fun s => rfl
  | cons p rest ih =>
    intro s
    show (processAllGo ext (p :: rest) s).1.map PayEntry.paymentId = _
    simp only [processAllGo, List.map_cons]
    rw [processAllItem_paymentId, ih]

/-- Unfolding the single-submission verification route: unknown
submission. -/
theorem verifyRoute_eq_noSub {ext : Ext} {s : MemStorage} {id : ℕ}
    (h : s.getSubmission id = none) :
    verifyRoute ext s id = (VerifyResp.notFound "Submission not found", s, []) := by
  unfold verifyRoute
  rw [h]

/-- Unfolding the single-submission verification route: the submission
was already decided. -/
theorem verifyRoute_eq_notPending {ext : Ext} {s : MemStorage} {id : ℕ}
    {sub : Submission} (hsub : s.getSubmission id = some sub)
    (hst : sub.status ≠ SubmissionStatus.pending) :
    verifyRoute ext s id = (VerifyResp.alreadyVerified, s, []) := by
  unfold verifyRoute
  rw [hsub]
  dsimp only
  rw [if_pos hst]

/-- Unfolding the single-submission verification route: missing parent
task. -/
theorem verifyRoute_eq_noTask {ext : Ext} {s : MemStorage} {id : ℕ}
    {sub : Submission} (hsub : s.getSubmission id = some sub)
    (hp : sub.status = SubmissionStatus.pending)
    (ht : s.getTask sub.taskId = none) :
    verifyRoute ext s id = (VerifyResp.notFound "Task not found", s, []) := by
  unfold verifyRoute
  rw [hsub]
  dsimp only
  rw [if_neg (by simp [hp]), ht]

/-- Unfolding the single-submission verification route: the judge call
failed and the failure marker is recognised. -/
theorem verifyRoute_eq_service {ext : Ext} {s : MemStorage} {id : ℕ}
    {sub : Submission} {task : Task}
    (hsub : s.getSubmission id = some sub)
    (hp : sub.status = SubmissionStatus.pending)
    (ht : s.getTask sub.taskId = some task)
    (hsw : jsStartsWith (judgeResult ext task sub).reasoning
      "Verification failed:" = true) :
    verifyRoute ext s id =
      (VerifyResp.serviceError (judgeResult ext task sub).reasoning, s,
        [Ev.callJudge sub.id]) := by
  unfold verifyRoute
  rw [hsub]
  dsimp only
  rw [if_neg (by simp [hp]), ht]
  dsimp only
  rw [if_pos hsw]

/-- Unfolding the single-submission verification route: a genuine
verdict is recorded. -/
theorem verifyRoute_eq_verdict {ext : Ext} {s : MemStorage} {id : ℕ}
    {sub : Submission} {task : Task}
    (hsub : s.getSubmission id = some sub)
    (hp : sub.status = SubmissionStatus.pending)
    (ht : s.getTask sub.taskId = some task)
    (hsw : jsStartsWith (judgeResult ext task sub).reasoning
      "Verification failed:" = false) :
    verifyRoute ext s id =
      (VerifyResp.verified
        ((recordVerdict s sub task (judgeResult ext task sub)).1.getSubmission
          sub.id) (judgeResult ext task sub),
        (recordVerdict s sub task (judgeResult ext task sub)).1,
        Ev.callJudge sub.id ::
          (recordVerdict s sub task (judgeResult ext task sub)).2) := by
  unfold verifyRoute
  rw [hsub]
  dsimp only
  rw [if_neg (by simp [hp]), ht]
  dsimp only
  rw [if_neg (by simp [hsw])]

/-- Budget writes do not touch the payments. -/
theorem payments_updateBudget (s : MemStorage) (bal : ℚ)
    (wa : Option String) : (s.updateBudget bal wa).payments = s.payments := by
  unfold MemStorage.updateBudget
  cases s.budgetData <;> rfl

/-- A budget write on an existing record keeps the paid-out total. -/
theorem budget_updateBudget_some {s : MemStorage} {b : Budget} {bal : ℚ}
    {wa : Option String} (hb : s.budgetData = some b) :
    (s.updateBudget bal wa).budgetData =
      some { b with balanceSol := bal,
                    walletAddress := if strTruthy wa then wa.getD ""
                      else b.walletAddress,
                    lastUpdated := s.now } := by
  unfold MemStorage.updateBudget
  rw [hb]

/-- Budget writes do not change the completed-payment sum. -/
theorem completedSum_updateBudget (s : MemStorage) (bal : ℚ)
    (wa : Option String) :
    completedSum (s.updateBudget bal wa) = completedSum s := by
  unfold completedSum
  rw [payments_updateBudget]

/-- Marking a pending payment failed keeps the store well-formed and
budget-consistent. -/
theorem settle_fail1 {s : MemStorage} {p : Payment} (hs : GoodState s)
    (hp : p ∈ s.payments) (hpend : p.status = PaymentStatus.pending)
    (e : Option String) :
    GoodState (s.updatePaymentStatus p.id PaymentStatus.failed none e) ∧
      (BudgetOK s →
        BudgetOK (s.updatePaymentStatus p.id PaymentStatus.failed none e)) := by
  refine ⟨good_updatePaymentStatus hs, ?_⟩
  rintro ⟨b, hb, he⟩
  refine ⟨b, hb, ?_⟩
  rw [completedSum_updatePaymentStatus hs.paysNodup hp rfl]
  simp [hpend]
  exact he

/-- Marking a pending payment processing and then failed keeps the
store well-formed and budget-consistent. -/
theorem settle_fail2 {s : MemStorage} {p : Payment} (hs : GoodState s)
    (hp : p ∈ s.payments) (hpend : p.status = PaymentStatus.pending)
    (sig2 e : Option String) :
    GoodState ((s.updatePaymentStatus p.id PaymentStatus.processing none
      none).updatePaymentStatus p.id PaymentStatus.failed sig2 e) ∧
      (BudgetOK s →
        BudgetOK ((s.updatePaymentStatus p.id PaymentStatus.processing none
          none).updatePaymentStatus p.id PaymentStatus.failed sig2 e)) := by
  refine ⟨good_updatePaymentStatus (good_updatePaymentStatus hs), ?_⟩
  rintro ⟨b, hb, he⟩
  refine ⟨b, hb, ?_⟩
  have hnd2 : ((s.updatePaymentStatus p.id PaymentStatus.processing none
      none).payments.map Payment.id).Nodup :=
    nodup_setById hs.paysNodup fun a => rfl
  obtain ⟨q, hq, hqid, hqst, hqamt⟩ :=
    @updated_payment_mem s p PaymentStatus.processing none none hp
  rw [completedSum_updatePaymentStatus hnd2 hq hqid,
    completedSum_updatePaymentStatus hs.paysNodup hp rfl]
  simp [hpend, hqst]
  exact he

/-- Completing a pending payment with the earnings and paid-out
accruals keeps the store well-formed and budget-consistent. -/
theorem settle_completed {s : MemStorage} {p : Payment} (hs : GoodState s)
    (hp : p ∈ s.payments) (hpend : p.status = PaymentStatus.pending)
    (sg : String) :
    GoodState ((((s.updatePaymentStatus p.id PaymentStatus.processing none
      none).updatePaymentStatus p.id PaymentStatus.completed (some sg)
      none).updateUserEarnings p.workerId p.amountSol).addToPaidOut
      p.amountSol) ∧
      (BudgetOK s →
        BudgetOK ((((s.updatePaymentStatus p.id PaymentStatus.processing none
          none).updatePaymentStatus p.id PaymentStatus.completed (some sg)
          none).updateUserEarnings p.workerId p.amountSol).addToPaidOut
          p.amountSol)) := by
  refine ⟨good_addToPaidOut (good_updateUserEarnings
    (good_updatePaymentStatus (good_updatePaymentStatus hs))), ?_⟩
  rintro ⟨b, hb, he⟩
  have hb4 : (((s.updatePaymentStatus p.id PaymentStatus.processing none
      none).updatePaymentStatus p.id PaymentStatus.completed (some sg)
      none).updateUserEarnings p.workerId p.amountSol).budgetData =
      some b := hb
  refine ⟨_, budget_addToPaidOut_some hb4, ?_⟩
  show b.totalPaidOut + p.amountSol = _
  rw [completedSum_addToPaidOut, completedSum_updateUserEarnings,
    completedSum_process_then hs.paysNodup hp hpend, he]
  simp

/-- The single-payment settlement route keeps the store well-formed and
preserves budget consistency. -/
theorem processPayment_good_budget (ext : Ext) (s : MemStorage) (id : ℕ)
    (hs : GoodState s) :
    GoodState (processPayment ext s id).2.1 ∧
      (BudgetOK s → BudgetOK (processPayment ext s id).2.1) := by
  unfold processPayment
  cases hP : s.getPayment id with
  | none => exact ⟨hs, fun h => h⟩
  | some p =>
    have hpm := getPayment_mem hP
    dsimp only
    by_cases hst : p.status ≠ PaymentStatus.pending
    · rw [if_pos hst]
      exact ⟨hs, fun h => h⟩
    · rw [if_neg hst]
      have hpend : p.status = PaymentStatus.pending := of_not_not hst
      by_cases h0 : p.amountSol ≤ 0
      · rw [if_pos h0]
        exact ⟨hs, fun h => h⟩
      · rw [if_neg h0]
        by_cases hmax : MAX_PAYMENT_AMOUNT_SOL < p.amountSol
        · rw [if_pos hmax]
          exact ⟨hs, fun h => h⟩
        · rw [if_neg hmax]
          by_cases haddr : ext.validAddr p.walletAddress = true
          · rw [if_neg (not_not_intro haddr)]
            rcases hres : ext.send p.walletAddress p.amountSol with
              ⟨succ, sig, err⟩
            cases succ with
            | false => exact settle_fail2 hs hpm.1 hpend none err
            | true =>
              cases sig with
              | none => exact settle_fail2 hs hpm.1 hpend none err
              | some sg =>
                dsimp only
                by_cases hsg : sg = ""
                · rw [if_pos hsg]
                  exact settle_fail2 hs hpm.1 hpend none err
                · rw [if_neg hsg]
                  by_cases hc : ext.confirm sg = true
                  · rw [if_neg (not_not_intro hc)]
                    exact settle_completed hs hpm.1 hpend sg
                  · rw [if_pos hc]
                    exact settle_fail2 hs hpm.1 hpend none
                      (some "Transaction not confirmed")
          · rw [if_pos haddr]
            exact settle_fail1 hs hpm.1 hpend _

/-- Every route call preserves well-formedness, and budget consistency
once established. -/
theorem step_good {s s' : MemStorage} (h : Step s s') (hs : GoodState s) :
    GoodState s' ∧ (BudgetOK s → BudgetOK s') := by
  cases h with
  | createUser ext username password wa =>
    unfold createUserRoute
    split
    · exact ⟨hs, fun h => h⟩
    · split
      · exact ⟨hs, fun h => h⟩
      · split
        · exact ⟨hs, fun h => h⟩
        · split
          · exact ⟨hs, fun h => h⟩
          · exact ⟨good_createUser hs, fun ⟨b, hb, he⟩ => ⟨b, hb, he⟩⟩
  | createTask r =>
    unfold createTaskRoute
    by_cases hv : r.valid
    · rw [if_neg (not_not_intro hv)]
      by_cases hmax : MAX_PAYMENT_AMOUNT_SOL < r.rewardSol
      · rw [if_pos hmax]
        exact ⟨hs, fun h => h⟩
      · rw [if_neg hmax]
        exact ⟨good_createTask hs hv.2.2.2.2.2, fun ⟨b, hb, he⟩ => ⟨b, hb, he⟩⟩
    · rw [if_pos hv]
      exact ⟨hs, fun h => h⟩
  | generated title description taskType rewardSol verificationCriteria =>
    unfold createGeneratedTask
    by_cases hr : rewardSol ≤ 0 ∨ MAX_PAYMENT_AMOUNT_SOL < rewardSol
    · rw [if_pos hr]
      exact ⟨hs, fun h => h⟩
    · rw [if_neg hr]
      exact ⟨good_createTask hs (le_refl 1), fun ⟨b, hb, he⟩ => ⟨b, hb, he⟩⟩
  | claimTask taskId workerId =>
    unfold claimTaskRoute
    cases hu : s.getUser workerId with
    | none => exact ⟨hs, fun h => h⟩
    | some u =>
      dsimp only
      cases ht : s.getTask taskId with
      | none => exact ⟨hs, fun h => h⟩
      | some task =>
        dsimp only
        by_cases hst : task.status ≠ TaskStatus.open_
        · rw [if_pos hst]
          exact ⟨hs, fun h => h⟩
        · rw [if_neg hst]
          exact ⟨good_assignTask hs ht (of_not_not hst),
            fun ⟨b, hb, he⟩ => ⟨b, hb, he⟩⟩
  | createSubmission r =>
    unfold createSubmissionRoute
    by_cases hv : r.valid
    · rw [if_neg (not_not_intro hv)]
      cases hu : s.getUser r.workerId with
      | none => exact ⟨hs, fun h => h⟩
      | some u =>
        dsimp only
        cases ht : s.getTask r.taskId with
        | none => exact ⟨hs, fun h => h⟩
        | some task =>
          dsimp only
          by_cases hcl : task.status = TaskStatus.completed ∨
            task.status = TaskStatus.cancelled
          · rw [if_pos hcl]
            exact ⟨hs, fun h => h⟩
          · rw [if_neg hcl]
            by_cases hcap : task.maxSubmissions ≠ 0 ∧
              task.maxSubmissions ≤ task.currentSubmissions
            · rw [if_pos hcap]
              exact ⟨hs, fun h => h⟩
            · rw [if_neg hcap]
              have htm := getTask_mem ht
              have hum := getUser_mem hu
              have htids : r.taskId ∈ s.tasks.map Task.id :=
                List.mem_map.mpr ⟨task, htm.1, htm.2⟩
              have hwlt : r.workerId < s.nextId := by
                rw [← hum.2]
                exact hs.usersLt u hum.1
              have hroom : ∀ t ∈ (s.createSubmission r.taskId r.workerId
                  r.proofType r.proofData r.proofDescription).2.tasks,
                  t.id = task.id →
                  t.currentSubmissions < t.maxSubmissions := by
                intro t htm2 hid
                have htss : t ∈ s.tasks := htm2
                have hts : t = task := mem_id_unique hs.tasksNodup htss htm.1
                  (by rw [hid, htm.2])
                subst hts
                have h1m := hs.taskMaxPos t htss
                by_cases hz : t.maxSubmissions ≤ t.currentSubmissions
                · have hnz : t.maxSubmissions ≠ 0 := by omega
                  exact absurd ⟨hnz, hz⟩ hcap
                · exact Nat.not_le.mp hz
              exact ⟨good_incrementTaskSubmissions
                (good_createSubmission hs htids hwlt) hroom,
                fun ⟨b, hb, he⟩ => ⟨b, hb, he⟩⟩
    · rw [if_pos hv]
      exact ⟨hs, fun h => h⟩
  | verify ext id =>
    cases hsub : s.getSubmission id with
    | none =>
      rw [verifyRoute_eq_noSub hsub]
      exact ⟨hs, fun h => h⟩
    | some sub =>
      by_cases hp : sub.status = SubmissionStatus.pending
      · cases ht : s.getTask sub.taskId with
        | none =>
          rw [verifyRoute_eq_noTask hsub hp ht]
          exact ⟨hs, fun h => h⟩
        | some task =>
          cases hsw : jsStartsWith (judgeResult ext task sub).reasoning
            "Verification failed:" with
          | true =>
            rw [verifyRoute_eq_service hsub hp ht hsw]
            exact ⟨hs, fun h => h⟩
          | false =>
            rw [verifyRoute_eq_verdict hsub hp ht hsw]
            have hsm := getSubmission_mem hsub
            have htm := getTask_mem ht
            refine ⟨good_recordVerdict hs hsm.1 hp htm.1 htm.2, ?_⟩
            intro hB
            show BudgetOK (recordVerdict s sub task
              (judgeResult ext task sub)).1
            obtain ⟨b, hb, he⟩ := hB
            refine ⟨b, ?_, ?_⟩
            · rw [budget_recordVerdict]
              exact hb
            · rw [completedSum_recordVerdict]
              exact he
      · rw [verifyRoute_eq_notPending hsub hp]
        exact ⟨hs, fun h => h⟩
  | verifyAll ext =>
    have hpend : ∀ y ∈ s.getPendingSubmissions,
        y ∈ s.submissions ∧ y.status = SubmissionStatus.pending := by
      intro y hy
      have hm := List.mem_filter.mp hy
      exact ⟨hm.1, of_decide_eq_true hm.2⟩
    have hnd : (s.getPendingSubmissions.map Submission.id).Nodup :=
      List.Nodup.sublist ((List.filter_sublist _).map _) hs.subsNodup
    exact verifyBatchGo_good ext s.getPendingSubmissions s hs hpend hnd
  | processOne ext id =>
    exact processPayment_good_budget ext s id hs
  | processEvery ext =>
    have hpend : ∀ y ∈ s.getPendingPayments,
        y ∈ s.payments ∧ y.status = PaymentStatus.pending := by
      intro y hy
      have hm := List.mem_filter.mp hy
      exact ⟨hm.1, of_decide_eq_true hm.2⟩
    have hnd : (s.getPendingPayments.map Payment.id).Nodup :=
      List.Nodup.sublist ((List.filter_sublist _).map _) hs.paysNodup
    exact processAllGo_good ext s.getPendingPayments s hs hpend hnd
  | claimRewards ext wallet result =>
    unfold claimRewardsRoute
    by_cases h1 : strTruthy wallet = true
    · rw [if_neg (not_not_intro h1)]
      by_cases h2 : ext.validAddr (wallet.getD "") = true
      · rw [if_neg (not_not_intro h2)]
        by_cases h3 : result.success = true ∧
          numTruthy result.amountClaimed = true
        · rw [if_pos h3]
          refine ⟨good_updateBudget hs, ?_⟩
          rintro ⟨b, hb, he⟩
          refine ⟨_, budget_updateBudget_some hb, ?_⟩
          show b.totalPaidOut = _
          rw [completedSum_updateBudget]
          exact he
        · rw [if_neg h3]
          exact ⟨hs, fun h => h⟩
      · rw [if_pos h2]
        exact ⟨hs, fun h => h⟩
    · rw [if_pos h1]
      exact ⟨hs, fun h => h⟩

/-- The fresh store is well-formed. -/
theorem good_init : GoodState MemStorage.init := by
  constructor <;> simp [MemStorage.init]

/-- Along any run of route calls, well-formedness is maintained, and
budget consistency once established is maintained. -/
theorem steps_good {s₀ s : MemStorage}
    (h : Relation.ReflTransGen Step s₀ s) (h0 : GoodState s₀) :
    GoodState s ∧ (BudgetOK s₀ → BudgetOK s) := by
  induction h with
  | refl => exact ⟨h0, fun h => h⟩
  | tail _ hstep ih =>
    have hg := step_good hstep ih.1
    exact ⟨hg.1, fun hB => hg.2 (ih.2 hB)⟩

/-- Every reachable store is well-formed. -/
theorem reachable_good {s : MemStorage} (h : Reachable s) : GoodState s :=
  (steps_good h good_init).1

/-! ## String facts about the transport-failure marker -/

/-- A string built by appending to a pattern starts with that pattern. -/
theorem jsStartsWith_append_self (p m : String) :
    jsStartsWith (p ++ m) p = true := by
  unfold jsStartsWith
  rw [String.data_append, List.isPrefixOf_iff_prefix]
  exact List.prefix_append _ _

/-- The judge wrapper's error message starts with the recogniser marker
of the routes: `"Verification failed: " ++ m` begins with
`"Verification failed:"`. -/
theorem jsStartsWith_failMsg (m : String) :
    jsStartsWith ("Verification failed: " ++ m) "Verification failed:" = true := by
  unfold jsStartsWith
  rw [String.data_append, List.isPrefixOf_iff_prefix]
  have h : ("Verification failed: ").data
      = ("Verification failed:").data ++ (" ").data := rfl
  rw [h, List.append_assoc]
  exact List.prefix_append _ _

/-! ## Reachability of the scenario stores -/

/-- The main scenario store with the pending submission is reachable. -/
theorem reach_st4 : Reachable st4 := by
  have h1 : Reachable st1 :=
    Relation.ReflTransGen.single
      (Step.createUser MemStorage.init ext0 "alice" "secret1" (some "WALLET"))
  have h2 : Reachable st2 := h1.tail (Step.createTask st1 reqT)
  have h3 : Reachable st3 := h2.tail (Step.claimTask st2 1 0)
  exact h3.tail (Step.createSubmission st3 reqS)

/-- The store with the pending payment is reachable. -/
theorem reach_st5 : Reachable st5 := reach_st4.tail (Step.verify st4 ext0 2)

/-- The store after batch settlement is reachable. -/
theorem reach_stB : Reachable stB := reach_st5.tail (Step.processEvery st5 ext0)

/-- The store with the freshly created budget record after a completed
payment is reachable. -/
theorem reach_stC : Reachable stC :=
  reach_stB.tail
    (Step.claimRewards stB ext0 (some "WALLET") (ClaimResult.mk true (some 1)))

/-- The store with the budget record created before any settlement is
reachable. -/
theorem reach_stD : Reachable stD :=
  reach_st5.tail
    (Step.claimRewards st5 ext0 (some "WALLET") (ClaimResult.mk true (some 1)))

/-- The no-wallet scenario's final store is reachable. -/
theorem reach_nst5 : Reachable nst5 := by
  have h1 : Reachable nst1 :=
    Relation.ReflTransGen.single
      (Step.createUser MemStorage.init ext0 "bob" "secret1" none)
  have h2 : Reachable nst2 := h1.tail (Step.createTask nst1 reqT)
  have h3 : Reachable nst3 := h2.tail (Step.claimTask nst2 1 0)
  have h4 : Reachable nst4 := h3.tail (Step.createSubmission nst3 reqS)
  exact h4.tail (Step.verify nst4 ext0 2)

/-! ## Trace decompositions -/

/-- Splitting a cons list at an element different from its head keeps
the head inside the left part. -/
theorem head_mem_decomp {α : Type} {c : α} {rest l₁ l₂ : List α} {x : α}
    (hne : c ≠ x) (h : c :: rest = l₁ ++ x :: l₂) : c ∈ l₁ := by
  cases l₁ with
  | nil =>
    rw [List.nil_append, List.cons.injEq] at h
    exact absurd h.1 hne
  | cons a l₁x =>
    rw [List.cons_append, List.cons.injEq] at h
    rw [h.1]
    exact List.mem_cons_self a l₁x

/-- The element a list is split at is a member of the list. -/
theorem decomp_mem {α : Type} {tr l₁ l₂ : List α} {x : α}
    (h : tr = l₁ ++ x :: l₂) : x ∈ tr := by
  rw [h]
  exact List.mem_append_right l₁ (List.mem_cons_self x l₂)

/-- In the single-payment settlement flow, any decomposition of the
trace at a funds-transfer call finds the `processing` commit of the
payment strictly before it. -/
theorem processPayment_transfer_split (ext : Ext) (s : MemStorage) (id : ℕ)
    (p : Payment) (hP : s.getPayment id = some p) :
    ∀ l₁ l₂ addr amt,
      (processPayment ext s id).2.2 = l₁ ++ Ev.callTransfer addr amt :: l₂ →
      Ev.commitPayment p.id PaymentStatus.processing ∈ l₁ := by
  unfold processPayment
  rw [hP]
  dsimp only
  by_cases hst : p.status ≠ PaymentStatus.pending
  · rw [if_pos hst]
    intro l₁ l₂ addr amt h
    exact absurd (decomp_mem h) (List.not_mem_nil _)
  · rw [if_neg hst]
    by_cases h0 : p.amountSol ≤ 0
    · rw [if_pos h0]
      intro l₁ l₂ addr amt h
      exact absurd (decomp_mem h) (List.not_mem_nil _)
    · rw [if_neg h0]
      by_cases hmax : MAX_PAYMENT_AMOUNT_SOL < p.amountSol
      · rw [if_pos hmax]
        intro l₁ l₂ addr amt h
        exact absurd (decomp_mem h) (List.not_mem_nil _)
      · rw [if_neg hmax]
        by_cases haddr : ext.validAddr p.walletAddress = true
        · rw [if_neg (not_not_intro haddr)]
          rcases hres : ext.send p.walletAddress p.amountSol with ⟨succ, sig, err⟩
          cases succ with
          | false =>
            intro l₁ l₂ addr amt h
            exact head_mem_decomp (fun hcc => Ev.noConfusion hcc) h
          | true =>
            cases sig with
            | none =>
              intro l₁ l₂ addr amt h
              exact head_mem_decomp (fun hcc => Ev.noConfusion hcc) h
            | some sg =>
              dsimp only
              by_cases hsg : sg = ""
              · rw [if_pos hsg]
                intro l₁ l₂ addr amt h
                exact head_mem_decomp (fun hcc => Ev.noConfusion hcc) h
              · rw [if_neg hsg]
                by_cases hc : ext.confirm sg = true
                · rw [if_neg (not_not_intro hc)]
                  intro l₁ l₂ addr amt h
                  exact head_mem_decomp (fun hcc => Ev.noConfusion hcc) h
                · rw [if_pos hc]
                  intro l₁ l₂ addr amt h
                  exact head_mem_decomp (fun hcc => Ev.noConfusion hcc) h
        · rw [if_pos haddr]
          intro l₁ l₂ addr amt h
          have hm := decomp_mem h
          rw [List.mem_singleton] at hm
          exact absurd hm (fun hcc => Ev.noConfusion hcc)

/-- In one batch-settlement iteration, any decomposition of the trace at
a funds-transfer call finds the `processing` commit of the payment
strictly before it. -/
theorem processAllItem_transfer_split (ext : Ext) (s : MemStorage) (p : Payment) :
    ∀ l₁ l₂ addr amt,
      (processAllItem ext s p).2.2 = l₁ ++ Ev.callTransfer addr amt :: l₂ →
      Ev.commitPayment p.id PaymentStatus.processing ∈ l₁ := by
  unfold processAllItem
  by_cases h1 : p.amountSol ≤ 0 ∨ MAX_PAYMENT_AMOUNT_SOL < p.amountSol
  · rw [if_pos h1]
    intro l₁ l₂ addr amt h
    have hm := decomp_mem h
    rw [List.mem_singleton] at hm
    exact absurd hm (fun hcc => Ev.noConfusion hcc)
  · rw [if_neg h1]
    by_cases h2 : ext.validAddr p.walletAddress = true
    · rw [if_neg (not_not_intro h2)]
      rcases hres : ext.send p.walletAddress p.amountSol with ⟨succ, sig, err⟩
      cases succ with
      | false =>
        intro l₁ l₂ addr amt h
        exact head_mem_decomp (fun hcc => Ev.noConfusion hcc) h
      | true =>
        cases sig with
        | none =>
          intro l₁ l₂ addr amt h
          exact head_mem_decomp (fun hcc => Ev.noConfusion hcc) h
        | some sg =>
          dsimp only
          by_cases hsg : sg = ""
          · rw [if_pos hsg]
            intro l₁ l₂ addr amt h
            exact head_mem_decomp (fun hcc => Ev.noConfusion hcc) h
          · rw [if_neg hsg]
            intro l₁ l₂ addr amt h
            exact head_mem_decomp (fun hcc => Ev.noConfusion hcc) h
    · rw [if_pos h2]
      intro l₁ l₂ addr amt h
      have hm := decomp_mem h
      rw [List.mem_singleton] at hm
      exact absurd hm (fun hcc => Ev.noConfusion hcc)

/-- The trace of one batch-settlement iteration depends only on the
payment and the oracles, not on the store it runs in. -/
theorem processAllItem_trace_const (ext : Ext) (s t : MemStorage) (p : Payment) :
    (processAllItem ext s p).2.2 = (processAllItem ext t p).2.2 := by
  unfold processAllItem
  by_cases h1 : p.amountSol ≤ 0 ∨ MAX_PAYMENT_AMOUNT_SOL < p.amountSol
  · rw [if_pos h1, if_pos h1]
  · rw [if_neg h1, if_neg h1]
    by_cases h2 : ext.validAddr p.walletAddress = true
    · rw [if_neg (not_not_intro h2), if_neg (not_not_intro h2)]
      rcases hres : ext.send p.walletAddress p.amountSol with ⟨succ, sig, err⟩
      cases succ with
      | false => rfl
      | true =>
        cases sig with
        | none => rfl
        | some sg =>
          dsimp only
          by_cases hsg : sg = ""
          · rw [if_pos hsg, if_pos hsg]
          · rw [if_neg hsg, if_neg hsg]
    · rw [if_pos h2, if_pos h2]

/-- The batch-settlement loop's trace is the concatenation, in work-list
order, of the per-item traces. -/
theorem processAllGo_trace (ext : Ext) :
    ∀ (l : List Payment) (s : MemStorage),
      (processAllGo ext l s).2.2 =
        (l.map fun q => (processAllItem ext s q).2.2).flatten := by
  intro l
  induction l with
  | nil => intro s; rfl
  | cons p rest ih =>
    intro s
    show (processAllItem ext s p).2.2 ++
        (processAllGo ext rest (processAllItem ext s p).2.1).2.2 = _
    rw [ih (processAllItem ext s p).2.1]
    rw [List.map_cons, List.flatten_cons]
    have hf : (fun q => (processAllItem ext (processAllItem ext s p).2.1 q).2.2) =
        (fun q => (processAllItem ext s q).2.2) :=
      funext fun q => processAllItem_trace_const ext _ s q
    rw [hf]

/-- In the single-payment settlement flow, a funds-transfer call in the
trace means the amount and address checks all passed. -/
theorem processPayment_transfer_checks (ext : Ext) (s : MemStorage) (id : ℕ)
    (p : Payment) (hP : s.getPayment id = some p) :
    ∀ e ∈ (processPayment ext s id).2.2, e.isTransferCall = true →
      0 < p.amountSol ∧ p.amountSol ≤ MAX_PAYMENT_AMOUNT_SOL ∧
        ext.validAddr p.walletAddress = true := by
  unfold processPayment
  rw [hP]
  dsimp only
  by_cases hst : p.status ≠ PaymentStatus.pending
  · rw [if_pos hst]
    intro e he
    exact absurd he (List.not_mem_nil e)
  · rw [if_neg hst]
    by_cases h0 : p.amountSol ≤ 0
    · rw [if_pos h0]
      intro e he
      exact absurd he (List.not_mem_nil e)
    · rw [if_neg h0]
      by_cases hmax : MAX_PAYMENT_AMOUNT_SOL < p.amountSol
      · rw [if_pos hmax]
        intro e he
        exact absurd he (List.not_mem_nil e)
      · rw [if_neg hmax]
        by_cases haddr : ext.validAddr p.walletAddress = true
        · rw [if_neg (not_not_intro haddr)]
          exact fun e he hte => ⟨not_le.mp h0, not_lt.mp hmax, haddr⟩
        · rw [if_pos haddr]
          intro e he hte
          rw [List.mem_singleton] at he
          rw [he] at hte
          exact Bool.noConfusion hte

/-- In one batch-settlement iteration, a funds-transfer call in the
trace means the amount and address checks all passed. -/
theorem processAllItem_transfer_checks (ext : Ext) (s : MemStorage) (p : Payment) :
    ∀ e ∈ (processAllItem ext s p).2.2, e.isTransferCall = true →
      0 < p.amountSol ∧ p.amountSol ≤ MAX_PAYMENT_AMOUNT_SOL ∧
        ext.validAddr p.walletAddress = true := by
  unfold processAllItem
  by_cases h1 : p.amountSol ≤ 0 ∨ MAX_PAYMENT_AMOUNT_SOL < p.amountSol
  · rw [if_pos h1]
    intro e he hte
    rw [List.mem_singleton] at he
    rw [he] at hte
    exact Bool.noConfusion hte
  · rw [if_neg h1]
    rcases not_or.mp h1 with ⟨h0, hmax⟩
    by_cases h2 : ext.validAddr p.walletAddress = true
    · rw [if_neg (not_not_intro h2)]
      exact fun e he hte => ⟨not_le.mp h0, not_lt.mp hmax, h2⟩
    · rw [if_pos h2]
      intro e he hte
      rw [List.mem_singleton] at he
      rw [he] at hte
      exact Bool.noConfusion hte

/-- Unfolding the single-payment settlement flow on a malformed
destination address: the payment is marked failed with the error text
and no external call appears in the trace. -/
theorem processPayment_eq_invalidAddr (ext : Ext) (s : MemStorage) (id : ℕ)
    (p : Payment) (hP : s.getPayment id = some p)
    (hpend : p.status = PaymentStatus.pending)
    (h0 : 0 < p.amountSol) (hmax : p.amountSol ≤ MAX_PAYMENT_AMOUNT_SOL)
    (haddr : ext.validAddr p.walletAddress = false) :
    processPayment ext s id = (ProcessResp.invalidAddress,
      s.updatePaymentStatus p.id PaymentStatus.failed none
        (some "Invalid wallet address"),
      [Ev.commitPayment p.id PaymentStatus.failed]) := by
  unfold processPayment
  rw [hP]
  dsimp only
  rw [if_neg (not_not_intro hpend), if_neg (not_le.mpr h0),
    if_neg (not_lt.mpr hmax), if_pos (by simp [haddr])]

/-- Unfolding one batch-settlement iteration on a malformed destination
address: the payment is marked failed with the error text and no
external call appears in the trace. -/
theorem processAllItem_eq_invalidAddr (ext : Ext) (s : MemStorage)
    (p : Payment) (h0 : 0 < p.amountSol)
    (hmax : p.amountSol ≤ MAX_PAYMENT_AMOUNT_SOL)
    (haddr : ext.validAddr p.walletAddress = false) :
    processAllItem ext s p =
      (PayEntry.mk p.id false none (some "Invalid wallet address"),
      s.updatePaymentStatus p.id PaymentStatus.failed none
        (some "Invalid wallet address"),
      [Ev.commitPayment p.id PaymentStatus.failed]) := by
  unfold processAllItem
  rw [if_neg (not_or.mpr ⟨not_le.mpr h0, not_lt.mpr hmax⟩),
    if_pos (by simp [haddr])]

/-! ## The claims -/

unseal Rat.add Rat.mul Rat.inv in
/-- C1: the specification requires settlement — in the single-payment and
the batch flow alike — to mark a payment completed and accrue the worker's
earnings and the budget's paid-out total only after the confirmation
checker has reported the transfer confirmed.  The batch flow violates
this: on the reachable store `st5` holding one pending payment, with
oracles whose funds executor succeeds but whose confirmation checker
never confirms, the single flow calls the checker and marks the payment
failed (`notConfirmed`), while batch settlement never calls the checker
at all and still marks the same payment completed, accruing the earnings
and the paid-out amount. -/
theorem C1_batch_settlement_completes_without_confirmation :
    Reachable st5 ∧
    st5.getPayment 3 = some pay3 ∧
    pay3.status = PaymentStatus.pending ∧
    (processPayment ext0 st5 3).1 = ProcessResp.notConfirmed ∧
    Ev.callConfirm "sig1" ∈ (processPayment ext0 st5 3).2.2 ∧
    (processPayment ext0 st5 3).2.1.payments.map Payment.status =
      [PaymentStatus.failed] ∧
    (processAll ext0 st5).2.1.payments.map Payment.status =
      [PaymentStatus.completed] ∧
    ((processAll ext0 st5).2.2.all fun e => !e.isConfirmCall) = true ∧
    Ev.commitEarnings 0 (1/20) ∈ (processAll ext0 st5).2.2 ∧
    Ev.commitPaidOut (1/20) ∈ (processAll ext0 st5).2.2 :=
  ⟨reach_st5, by decide⟩

/-- C2: when the judge transport fails, both verification flows leave the
store — and so the submission's pending status — untouched, create no
payment, and report a distinct service-error outcome (the 500-classified
`serviceError` response in the single flow, the
`"Verification service error"` entry in the batch flow), never a
rejection verdict. -/
theorem C2_judge_failure_leaves_submission_pending (ext : Ext)
    (s : MemStorage) (id : ℕ) (sub : Submission) (task : Task) (msg : String)
    (hsub : s.getSubmission id = some sub)
    (hp : sub.status = SubmissionStatus.pending)
    (ht : s.getTask sub.taskId = some task)
    (hfail : ext.judge task sub.proofType sub.proofData
      (if strTruthy sub.proofDescription then sub.proofDescription else none) =
      JudgeRaw.fail msg) :
    verifyRoute ext s id =
      (VerifyResp.serviceError ("Verification failed: " ++ msg), s,
        [Ev.callJudge sub.id]) ∧
    (verifyRoute ext s id).2.1.getSubmission id = some sub ∧
    verifyBatchItem ext s sub =
      (some (VerifyEntry.err sub.id "Verification service error"), s,
        [Ev.callJudge sub.id]) := by
  have hjr : judgeResult ext task sub = verifySubmission (JudgeRaw.fail msg) := by
    unfold judgeResult
    rw [hfail]
  have hre : (judgeResult ext task sub).reasoning =
      "Verification failed: " ++ msg := by
    rw [hjr]
    rfl
  have hsw : jsStartsWith (judgeResult ext task sub).reasoning
      "Verification failed:" = true := by
    rw [hre]
    exact jsStartsWith_failMsg msg
  have h1 := verifyRoute_eq_service hsub hp ht hsw
  refine ⟨?_, ?_, ?_⟩
  · rw [h1, hre]
  · rw [h1]
    exact hsub
  · rw [verifyBatchItem_eq_some ht, if_pos hsw]

unseal Rat.add Rat.mul Rat.inv in
/-- C2 witness: the judge-failure oracles on the concrete store with the
pending submission. -/
theorem C2_judge_failure_leaves_submission_pending_witness :
    verifyRoute extJF st4 2 =
      (VerifyResp.serviceError ("Verification failed: " ++ "boom"), st4,
        [Ev.callJudge sub0.id]) ∧
    (verifyRoute extJF st4 2).2.1.getSubmission 2 = some sub0 ∧
    verifyBatchItem extJF st4 sub0 =
      (some (VerifyEntry.err sub0.id "Verification service error"), st4,
        [Ev.callJudge sub0.id]) :=
  C2_judge_failure_leaves_submission_pending extJF st4 2 sub0 task1 "boom"
    (by decide) (by decide) (by decide) (by decide)

/-- C3 (amended): the paid-out/completed-sum ledger identity is NOT an
unconditional invariant of every reachable store — settlement before the
budget record exists silently skips the accrual (see the
counterexample) — but it does hold along every route-call sequence from
a store that is well-formed and already budget-consistent; and a payment
moving to `processing` or `failed` never touches the budget record. -/
theorem C3_totalPaidOut_tracks_completed_payments (s₀ s : MemStorage)
    (hg : GoodState s₀) (hB : BudgetOK s₀)
    (h : Relation.ReflTransGen Step s₀ s) :
    (∃ b, s.budgetData = some b ∧ b.totalPaidOut = completedSum s) ∧
    (∀ i sig err, (s.updatePaymentStatus i PaymentStatus.processing sig
      err).budgetData = s.budgetData) ∧
    (∀ i sig err, (s.updatePaymentStatus i PaymentStatus.failed sig
      err).budgetData = s.budgetData) :=
  ⟨(steps_good h hg).2 hB, fun _ _ _ => rfl, fun _ _ _ => rfl⟩

unseal Rat.add Rat.mul Rat.inv in
/-- C3 witness: the concrete budget-consistent store `stD`, along the
empty route-call sequence. -/
theorem C3_totalPaidOut_tracks_completed_payments_witness :
    (∃ b, stD.budgetData = some b ∧ b.totalPaidOut = completedSum stD) ∧
    (∀ i sig err, (stD.updatePaymentStatus i PaymentStatus.processing sig
      err).budgetData = stD.budgetData) ∧
    (∀ i sig err, (stD.updatePaymentStatus i PaymentStatus.failed sig
      err).budgetData = stD.budgetData) :=
  C3_totalPaidOut_tracks_completed_payments stD stD
    (reachable_good reach_stD) ⟨bD, by decide, by decide⟩
    Relation.ReflTransGen.refl

unseal Rat.add Rat.mul Rat.inv in
/-- C3 counterexample: on the reachable store `stC` the budget record
exists with a zero paid-out total while the completed-payment sum is
`1/20`: batch settlement ran before any budget record existed, so
`addToPaidOut` silently skipped the accrual, and the claimed invariant
fails. -/
theorem C3_counterexample_accrual_skipped :
    Reachable stC ∧
    stC.budgetData = some (Budget.mk 4 "WALLET" 1 0 6) ∧
    completedSum stC = 1/20 ∧
    ¬ BudgetOK stC := by
  refine ⟨reach_stC, by decide, by decide, ?_⟩
  rintro ⟨b, hb, he⟩
  have h2 : some (Budget.mk 4 "WALLET" 1 0 6) = some b := by
    rw [← hb]
    decide
  rw [← Option.some.inj h2] at he
  rw [show completedSum stC = 1/20 from by decide] at he
  exact absurd he (by decide)

/-- C4 (amended): in every reachable store, every payment references an
approved submission, no submission carries two payments, and every
approved submission whose worker has a payout address on file has a
payment over its task's reward.  The universally claimed direction —
every approved submission has a payment — fails exactly when the worker
has no payout address (see the counterexample), the gap §9 of the
specification acknowledges. -/
theorem C4_payment_submission_correspondence {s : MemStorage}
    (h : Reachable s) :
    (∀ p ∈ s.payments, ∃ x ∈ s.submissions,
      x.id = p.submissionId ∧ x.status = SubmissionStatus.approved) ∧
    (∀ p ∈ s.payments, ∀ q ∈ s.payments,
      p.submissionId = q.submissionId → p = q) ∧
    (∀ x ∈ s.submissions, x.status = SubmissionStatus.approved →
      ∀ u ∈ s.users, u.id = x.workerId → strTruthy u.walletAddress = true →
      ∃ p ∈ s.payments, p.submissionId = x.id ∧
        ∀ t ∈ s.tasks, t.id = x.taskId → p.amountSol = t.rewardSol) :=
  ⟨(reachable_good h).paySub, (reachable_good h).payOnce,
    (reachable_good h).approvedPaid⟩

/-- C4 witness: the correspondence on the concrete store with the
approved submission and its pending payment. -/
theorem C4_payment_submission_correspondence_witness :
    (∀ p ∈ st5.payments, ∃ x ∈ st5.submissions,
      x.id = p.submissionId ∧ x.status = SubmissionStatus.approved) ∧
    (∀ p ∈ st5.payments, ∀ q ∈ st5.payments,
      p.submissionId = q.submissionId → p = q) ∧
    (∀ x ∈ st5.submissions, x.status = SubmissionStatus.approved →
      ∀ u ∈ st5.users, u.id = x.workerId → strTruthy u.walletAddress = true →
      ∃ p ∈ st5.payments, p.submissionId = x.id ∧
        ∀ t ∈ st5.tasks, t.id = x.taskId → p.amountSol = t.rewardSol) :=
  C4_payment_submission_correspondence reach_st5

unseal Rat.add Rat.mul Rat.inv in
/-- C4 counterexample: in the reachable store `nst5` the submission is
approved while the payments table is empty — the worker has no payout
address, so no payment was ever created for the approved submission. -/
theorem C4_counterexample_no_wallet_no_payment :
    Reachable nst5 ∧
    nst5.getSubmission 2 = some (Submission.mk 2 1 0 "text" "p" none
      SubmissionStatus.approved (some "Looks good") (some 90) 1 (some 2)) ∧
    nst5.payments = [] :=
  ⟨reach_nst5, by decide, by decide⟩

/-- C5: in every reachable store no task's submission counter exceeds
its cap, a task whose counter has reached the cap is in
`pending_verification` or a later status, and a submission request
against a cap-reached task is rejected — the store, and so the
submissions table, is untouched and the response is the closed-task or
cap-reached rejection. -/
theorem C5_submission_cap_enforced {s : MemStorage} (h : Reachable s) :
    (∀ t ∈ s.tasks, t.currentSubmissions ≤ t.maxSubmissions) ∧
    (∀ t ∈ s.tasks, t.maxSubmissions ≤ t.currentSubmissions →
      t.status = TaskStatus.pending_verification ∨
      t.status = TaskStatus.completed ∨ t.status = TaskStatus.cancelled) ∧
    (∀ (r : SubmitProofRequest) (u : User) (task : Task), r.valid →
      s.getUser r.workerId = some u → s.getTask r.taskId = some task →
      task.maxSubmissions ≤ task.currentSubmissions →
      (createSubmissionRoute s r).2 = s ∧
      ((createSubmissionRoute s r).1 = SubmitResp.taskClosed ∨
       (createSubmissionRoute s r).1 = SubmitResp.maxReached)) := by
  have g := reachable_good h
  refine ⟨g.taskCap, g.taskCapStatus, ?_⟩
  intro r u task hv hu ht hcap
  unfold createSubmissionRoute
  rw [if_neg (not_not_intro hv), hu, ht]
  dsimp only
  by_cases hclosed : task.status = TaskStatus.completed ∨
    task.status = TaskStatus.cancelled
  · rw [if_pos hclosed]
    exact ⟨rfl, Or.inl rfl⟩
  · rw [if_neg hclosed]
    have hmax : task.maxSubmissions ≠ 0 := by
      have h1 := g.taskMaxPos task (getTask_mem ht).1
      omega
    rw [if_pos ⟨hmax, hcap⟩]
    exact ⟨rfl, Or.inr rfl⟩

unseal Rat.add Rat.mul Rat.inv in
/-- C5 witness: the cap rules on the concrete store whose task has
reached its cap of 1. -/
theorem C5_submission_cap_enforced_witness :
    (∀ t ∈ st4.tasks, t.currentSubmissions ≤ t.maxSubmissions) ∧
    (∀ t ∈ st4.tasks, t.maxSubmissions ≤ t.currentSubmissions →
      t.status = TaskStatus.pending_verification ∨
      t.status = TaskStatus.completed ∨ t.status = TaskStatus.cancelled) ∧
    (∀ (r : SubmitProofRequest) (u : User) (task : Task), r.valid →
      st4.getUser r.workerId = some u → st4.getTask r.taskId = some task →
      task.maxSubmissions ≤ task.currentSubmissions →
      (createSubmissionRoute st4 r).2 = st4 ∧
      ((createSubmissionRoute st4 r).1 = SubmitResp.taskClosed ∨
       (createSubmissionRoute st4 r).1 = SubmitResp.maxReached)) :=
  C5_submission_cap_enforced reach_st4

/-- C6: a verify call on a submission that is no longer pending is
turned away by the guard — the 400-classified `alreadyVerified`
rejection — with the store returned unchanged and no observable action,
so a pending → approved/rejected transition can happen at most once. -/
theorem C6_second_verify_attempt_rejected (ext : Ext) (s : MemStorage)
    (id : ℕ) (sub : Submission) (hsub : s.getSubmission id = some sub)
    (hst : sub.status ≠ SubmissionStatus.pending) :
    verifyRoute ext s id = (VerifyResp.alreadyVerified, s, []) ∧
    VerifyResp.alreadyVerified.statusCode = 400 :=
  ⟨verifyRoute_eq_notPending hsub hst, rfl⟩

unseal Rat.add Rat.mul Rat.inv in
/-- C6 witness: a second verify attempt on the already-approved
submission of the concrete store. -/
theorem C6_second_verify_attempt_rejected_witness :
    verifyRoute ext0 st5 2 = (VerifyResp.alreadyVerified, st5, []) ∧
    VerifyResp.alreadyVerified.statusCode = 400 :=
  C6_second_verify_attempt_rejected ext0 st5 2 subA (by decide) (by decide)

/-- C7 (amended): in both settlement flows every funds-transfer call is
preceded by the positive-amount, per-transaction-cap and
address-well-formedness checks, and a malformed address marks the
payment failed with the error text and no external call.  The over-cap
case, however, is NOT handled the same way in the two flows (see the
counterexample): the single flow rejects it leaving the payment pending,
the batch flow marks it failed. -/
theorem C7_settlement_checks_precede_transfer (ext : Ext) (s : MemStorage)
    (id : ℕ) (p : Payment) (hP : s.getPayment id = some p)
    (hpend : p.status = PaymentStatus.pending) :
    (∀ e ∈ (processPayment ext s id).2.2, e.isTransferCall = true →
      0 < p.amountSol ∧ p.amountSol ≤ MAX_PAYMENT_AMOUNT_SOL ∧
        ext.validAddr p.walletAddress = true) ∧
    (∀ e ∈ (processAllItem ext s p).2.2, e.isTransferCall = true →
      0 < p.amountSol ∧ p.amountSol ≤ MAX_PAYMENT_AMOUNT_SOL ∧
        ext.validAddr p.walletAddress = true) ∧
    (ext.validAddr p.walletAddress = false → 0 < p.amountSol →
      p.amountSol ≤ MAX_PAYMENT_AMOUNT_SOL →
      processPayment ext s id = (ProcessResp.invalidAddress,
        s.updatePaymentStatus p.id PaymentStatus.failed none
          (some "Invalid wallet address"),
        [Ev.commitPayment p.id PaymentStatus.failed]) ∧
      processAllItem ext s p =
        (PayEntry.mk p.id false none (some "Invalid wallet address"),
        s.updatePaymentStatus p.id PaymentStatus.failed none
          (some "Invalid wallet address"),
        [Ev.commitPayment p.id PaymentStatus.failed])) :=
  ⟨processPayment_transfer_checks ext s id p hP,
   processAllItem_transfer_checks ext s p,
   fun haddr h0 hmax =>
     ⟨processPayment_eq_invalidAddr ext s id p hP hpend h0 hmax haddr,
      processAllItem_eq_invalidAddr ext s p h0 hmax haddr⟩⟩

unseal Rat.add Rat.mul Rat.inv in
/-- C7 witness: the settlement checks on the concrete store's pending
payment. -/
theorem C7_settlement_checks_precede_transfer_witness :
    (∀ e ∈ (processPayment ext0 st5 3).2.2, e.isTransferCall = true →
      0 < pay3.amountSol ∧ pay3.amountSol ≤ MAX_PAYMENT_AMOUNT_SOL ∧
        ext0.validAddr pay3.walletAddress = true) ∧
    (∀ e ∈ (processAllItem ext0 st5 pay3).2.2, e.isTransferCall = true →
      0 < pay3.amountSol ∧ pay3.amountSol ≤ MAX_PAYMENT_AMOUNT_SOL ∧
        ext0.validAddr pay3.walletAddress = true) ∧
    (ext0.validAddr pay3.walletAddress = false → 0 < pay3.amountSol →
      pay3.amountSol ≤ MAX_PAYMENT_AMOUNT_SOL →
      processPayment ext0 st5 3 = (ProcessResp.invalidAddress,
        st5.updatePaymentStatus pay3.id PaymentStatus.failed none
          (some "Invalid wallet address"),
        [Ev.commitPayment pay3.id PaymentStatus.failed]) ∧
      processAllItem ext0 st5 pay3 =
        (PayEntry.mk pay3.id false none (some "Invalid wallet address"),
        st5.updatePaymentStatus pay3.id PaymentStatus.failed none
          (some "Invalid wallet address"),
        [Ev.commitPayment pay3.id PaymentStatus.failed])) :=
  C7_settlement_checks_precede_transfer ext0 st5 3 pay3 (by decide) (by decide)

/-- C7 counterexample: the over-cap case diverges between the flows.  On
a store holding one pending payment of amount 11 (over the cap of 10),
the single flow answers `exceedsMax` and leaves the store — and so the
payment's pending status — unchanged, while the batch flow marks the
same payment failed with `"Invalid payment amount"`. -/
theorem C7_counterexample_overcap_divergence :
    sBig.getPayment 0 = some bigPayment ∧
    MAX_PAYMENT_AMOUNT_SOL < bigPayment.amountSol ∧
    (processPayment ext0 sBig 0).1 = ProcessResp.exceedsMax ∧
    (processPayment ext0 sBig 0).2.1 = sBig ∧
    (processAll ext0 sBig).2.1.payments.map Payment.status =
      [PaymentStatus.failed] ∧
    (processAll ext0 sBig).2.1.payments.map Payment.errorMessage =
      [some "Invalid payment amount"] := by
  decide

/-- C8: in every reachable store, batch verification yields exactly one
entry per pending submission, in store order, and batch settlement
exactly one entry per pending payment — no pending item is silently
dropped from the result list, and the aggregate count is the length of
that list. -/
theorem C8_batch_results_cover_all_pending_items {s : MemStorage}
    (h : Reachable s) (ext : Ext) :
    (verifyBatch ext s).1.map VerifyEntry.submissionId =
      s.getPendingSubmissions.map Submission.id ∧
    (processAll ext s).1.map PayEntry.paymentId =
      s.getPendingPayments.map Payment.id :=
  ⟨verifyBatchGo_ids ext s.getPendingSubmissions s (fun y hy =>
      (reachable_good h).subTask y (List.mem_filter.mp hy).1),
   processAllGo_ids ext s.getPendingPayments s⟩

unseal Rat.add Rat.mul Rat.inv in
/-- C8 witness: the batch coverage on the concrete store with one
pending submission, under the judge-failure oracles — the failing item
still yields its entry. -/
theorem C8_batch_results_cover_all_pending_items_witness :
    (verifyBatch extJF st4).1.map VerifyEntry.submissionId =
      st4.getPendingSubmissions.map Submission.id ∧
    (processAll extJF st4).1.map PayEntry.paymentId =
      st4.getPendingPayments.map Payment.id :=
  C8_batch_results_cover_all_pending_items reach_st4 extJF

/-- C9: within one payment's settlement flow — single or batch — the
pending → processing commit strictly precedes the funds-transfer call:
however the trace is split at a transfer call, the processing commit of
that payment lies in the earlier part; and the batch trace is the
concatenation of the per-payment traces, so the same holds within each
item's segment. -/
theorem C9_processing_committed_before_transfer (ext : Ext)
    (s : MemStorage) (id : ℕ) (p : Payment)
    (hP : s.getPayment id = some p) :
    (∀ l₁ l₂ addr amt,
      (processPayment ext s id).2.2 = l₁ ++ Ev.callTransfer addr amt :: l₂ →
      Ev.commitPayment p.id PaymentStatus.processing ∈ l₁) ∧
    (∀ l₁ l₂ addr amt,
      (processAllItem ext s p).2.2 = l₁ ++ Ev.callTransfer addr amt :: l₂ →
      Ev.commitPayment p.id PaymentStatus.processing ∈ l₁) ∧
    (processAll ext s).2.2 =
      (s.getPendingPayments.map fun q => (processAllItem ext s q).2.2).flatten :=
  ⟨processPayment_transfer_split ext s id p hP,
   processAllItem_transfer_split ext s p,
   processAllGo_trace ext s.getPendingPayments s⟩

unseal Rat.add Rat.mul Rat.inv in
/-- C9 witness: the commit-before-transfer ordering on the concrete
store's pending payment. -/
theorem C9_processing_committed_before_transfer_witness :
    (∀ l₁ l₂ addr amt,
      (processPayment ext0 st5 3).2.2 = l₁ ++ Ev.callTransfer addr amt :: l₂ →
      Ev.commitPayment pay3.id PaymentStatus.processing ∈ l₁) ∧
    (∀ l₁ l₂ addr amt,
      (processAllItem ext0 st5 pay3).2.2 = l₁ ++ Ev.callTransfer addr amt :: l₂ →
      Ev.commitPayment pay3.id PaymentStatus.processing ∈ l₁) ∧
    (processAll ext0 st5).2.2 =
      (st5.getPendingPayments.map fun q => (processAllItem ext0 st5 q).2.2).flatten :=
  C9_processing_committed_before_transfer ext0 st5 3 pay3 (by decide)

/-- C10: the judge wrapper is total — every transport failure is caught
and returned as a non-verdict whose reasoning carries the
`"Verification failed:"` marker with approval false and score 0 — and
the orchestrator recognises a service error solely by that marker, so a
genuine approving verdict whose free-text reasoning begins with the
marker is misclassified as a service error: the route answers
`serviceError` and leaves the store, and so the pending submission,
untouched. -/
theorem C10_service_error_classified_by_marker (ext : Ext) (s : MemStorage)
    (id : ℕ) (sub : Submission) (task : Task) (a : Bool) (sc : ℚ)
    (r : String) (sg : Option (List String))
    (hsub : s.getSubmission id = some sub)
    (hp : sub.status = SubmissionStatus.pending)
    (ht : s.getTask sub.taskId = some task)
    (hok : ext.judge task sub.proofType sub.proofData
      (if strTruthy sub.proofDescription then sub.proofDescription else none) =
      JudgeRaw.ok a sc r sg)
    (hne : r ≠ "")
    (hr : jsStartsWith r "Verification failed:" = true) :
    (∀ msg, verifySubmission (JudgeRaw.fail msg) =
      VerificationResult.mk false 0 ("Verification failed: " ++ msg)
        (some ["Please try submitting again with clearer proof"])) ∧
    verifyRoute ext s id =
      (VerifyResp.serviceError r, s, [Ev.callJudge sub.id]) := by
  have hjr : judgeResult ext task sub =
      verifySubmission (JudgeRaw.ok a sc r sg) := by
    unfold judgeResult
    rw [hok]
  have hre : (judgeResult ext task sub).reasoning = r := by
    rw [hjr]
    show (if r = "" then "No reasoning provided" else r) = r
    rw [if_neg hne]
  have hsw : jsStartsWith (judgeResult ext task sub).reasoning
      "Verification failed:" = true := by
    rw [hre]
    exact hr
  exact ⟨fun msg => rfl, by rw [verifyRoute_eq_service hsub hp ht hsw, hre]⟩

unseal Rat.add Rat.mul Rat.inv in
/-- C10 witness: the approving verdict whose reasoning begins with the
marker, on the concrete store with the pending submission. -/
theorem C10_service_error_classified_by_marker_witness :
    (∀ msg, verifySubmission (JudgeRaw.fail msg) =
      VerificationResult.mk false 0 ("Verification failed: " ++ msg)
        (some ["Please try submitting again with clearer proof"])) ∧
    verifyRoute extTricky st4 2 =
      (VerifyResp.serviceError
        "Verification failed: backend hiccup, yet the work is correct",
        st4, [Ev.callJudge sub0.id]) :=
  C10_service_error_classified_by_marker extTricky st4 2 sub0 task1 true 95
    "Verification failed: backend hiccup, yet the work is correct" none
    (by decide) (by decide) (by decide) (by decide) (by decide) (by decide)
